import Mathlib

/-!
Verification of the ArduinoCamperVan drivers: the lookup-table interpolator
(src/LookupTable1D.cpp), the DS3231 clock (src/DS3231_minimal.cpp) and the MPU6050
sensor (src/MPU6050_minimal.cpp).  Definitions come first, theorems after them.

LookupTable1D: piecewise-linear lookup table.  The interpolator is embedded twice.

* `LookupTable1D`, `findLoop`, `findClosestIndex`, `interpolate`: samples and queries are
  exact rationals (`ℚ`) and the interpolation formula is evaluated without rounding; a
  division by a zero divisor, which yields an infinity or a NaN in the program, has no
  rational value and is rendered as `none`.  Statements made in exact rational arithmetic,
  and statements about indices, reads and the diagnostic, are made here.
* `LookupTable1DF`, `findLoopF`, `findClosestIndexF`, `interpolateF`: samples and queries
  are `double` values (`Double`: NaN, infinities, signed zeros, finite numbers) and every
  operation rounds as the program's does.  What the program computes on given `double`
  inputs is evaluated here.
* The two `const double*` members are the memory seen through the pointer: the
  value found at every offset.  The positions actually read are recorded, so
  that statements about reads staying below `size_` can be made.
* `size_t` is an unsigned integer of `w` bits; `size_ - 1` wraps modulo `2 ^ w`.
  The increments `i + 1` and `index + 1` are taken after `i < size_ - 1` (or on
  the constant `0`) and cannot wrap for `w ≥ 1`.
* `Serial.println` appends a line to the serial output.
-/

set_option autoImplicit false

/-- One read through a sample pointer of the table, with the offset read. -/
inductive Read where
  | inputValues (pos : Nat)
  | outputValues (pos : Nat)
  deriving DecidableEq, Repr

/-- Offset of a read. -/
def Read.pos : Read → Nat
  | .inputValues p => p
  | .outputValues p => p

/-- Observable effects of a call: sample reads in program order, serial lines printed. -/
structure Effects where
  reads : List Read
  serial : List String
  deriving DecidableEq, Repr

/-- State of a `LookupTable1D` object: the members `inputValues_`, `outputValues_`
and `size_` (a `size_t` of `w` bits). -/
structure LookupTable1D (w : Nat) where
  inputValues_ : Nat → ℚ
  outputValues_ : Nat → ℚ
  size_ : Nat
  size_lt : size_ < 2 ^ w

namespace LookupTable1D

variable {w : Nat}

/-- Constructor `LookupTable1D(inputValues, outputValues, size)` applied to two arrays
given as lists (offsets past the end of a list read as `0`). No validation is done. -/
def ofLists (w : Nat) (inputValues outputValues : List ℚ) (size : Nat)
    (h : size < 2 ^ w) : LookupTable1D w :=
  ⟨fun i => inputValues.getD i 0, fun i => outputValues.getD i 0, size, h⟩

/-- The loop bound `size_ - 1` in `size_t` arithmetic. -/
def loopBound (t : LookupTable1D w) : Nat :=
  (t.size_ + 2 ^ w - 1) % 2 ^ w

/-- The loop of `findClosestIndex`, entered with loop variable `i`:
`for (; i < size_ - 1; ++i) if (inputValue >= inputValues_[i] && inputValue <= inputValues_[i + 1]) return i;`.
Result `some i` is `return i`, `none` is falling out of the loop.  The right operand
of `&&` is read only when the left operand holds. -/
def findLoop (t : LookupTable1D w) (inputValue : ℚ) (i : Nat) : Option Nat × List Read :=
  if i < t.loopBound then
    if inputValue ≥ t.inputValues_ i then
      if inputValue ≤ t.inputValues_ (i + 1) then
        (some i, [Read.inputValues i, Read.inputValues (i + 1)])
      else
        let r := findLoop t inputValue (i + 1)
        (r.1, Read.inputValues i :: Read.inputValues (i + 1) :: r.2)
    else
      let r := findLoop t inputValue (i + 1)
      (r.1, Read.inputValues i :: r.2)
  else
    (none, [])
termination_by t.loopBound - i

/-- `LookupTable1D::findClosestIndex`: the index returned, with the effects of the call. -/
def findClosestIndex (t : LookupTable1D w) (inputValue : ℚ) : Nat × Effects :=
  let r := findLoop t inputValue 0
  match r.1 with
  | some i => (i, ⟨r.2, []⟩)
  | none => (0, ⟨r.2, ["Error: Failed to find closest index."]⟩)

/-- `LookupTable1D::interpolate`: the value returned (`none` when the divisor
`x1 - x0` is zero), with the effects of the call. -/
def interpolate (t : LookupTable1D w) (inputValue : ℚ) : Option ℚ × Effects :=
  let r := t.findClosestIndex inputValue
  let index := r.1
  let x0 := t.inputValues_ index
  let x1 := t.inputValues_ (index + 1)
  let y0 := t.outputValues_ index
  let y1 := t.outputValues_ (index + 1)
  let reads := r.2.reads ++ [Read.inputValues index, Read.inputValues (index + 1),
    Read.outputValues index, Read.outputValues (index + 1)]
  (if x1 - x0 = 0 then none else some (y0 + (y1 - y0) * (inputValue - x0) / (x1 - x0)),
    ⟨reads, r.2.serial⟩)

/-! ### Vocabulary of the specification -/

/-- Interval `i` brackets the query: `domainSamples[i] <= query <= domainSamples[i+1]`. -/
def Brackets (t : LookupTable1D w) (q : ℚ) (i : Nat) : Prop :=
  t.inputValues_ i ≤ q ∧ q ≤ t.inputValues_ (i + 1)

instance (t : LookupTable1D w) (q : ℚ) (i : Nat) : Decidable (t.Brackets q i) := by
  unfold Brackets; infer_instance

/-- Domain samples strictly increasing over the `size_` samples. -/
def StrictlyIncreasing (t : LookupTable1D w) : Prop :=
  ∀ i, i + 1 < t.size_ → t.inputValues_ i < t.inputValues_ (i + 1)

/-- Domain samples non-decreasing (sorted) over the `size_` samples. -/
def Sorted (t : LookupTable1D w) : Prop :=
  ∀ i, i + 1 < t.size_ → t.inputValues_ i ≤ t.inputValues_ (i + 1)

/-- The interpolation formula of the specification for the segment through
`(x0, y0)` and `(x1, y1)`: `y0 + (y1 - y0) * (query - x0) / (x1 - x0)`, undefined
(`none`) for a duplicate abscissa `x0 = x1`. -/
def segmentValue (x0 x1 y0 y1 query : ℚ) : Option ℚ :=
  if x0 = x1 then none else some (y0 + (y1 - y0) * (query - x0) / (x1 - x0))

/-- The table of the specification's worked example: domain `[0,10,20]`, range `[0,100,300]`. -/
def exampleTable : LookupTable1D 16 :=
  ofLists 16 [0, 10, 20] [0, 100, 300] 3 (by norm_num)

/-- A table constructed with `size = 1`: domain `[3]`, range `[5]`. -/
def singlePointTable : LookupTable1D 16 :=
  ofLists 16 [3] [5] 1 (by norm_num)

/-- A table constructed with `size = 0`. -/
def emptyTable : LookupTable1D 16 :=
  ofLists 16 [] [] 0 (by norm_num)

/-- A table constructed with `size = 0` over the three-element arrays `[0,5,10]` and
`[1,2,10]`. -/
def zeroCountTable : LookupTable1D 16 :=
  ofLists 16 [0, 5, 10] [1, 2, 10] 0 (by norm_num)

end LookupTable1D

/-! ## The two-wire bus (`Wire`) with a register-file device

The drivers talk to their chip through the Arduino `Wire` object.  The chip is taken
as a register file: a write transmission carries a register address followed by data
bytes, stored at consecutive registers; a read request returns the bytes found from
the register pointer on.  Bytes written are returned unchanged when read back.
-/

/-- State of the bus and of the device attached to it. -/
structure Bus where
  /-- I2C address the device answers to. -/
  address : Nat
  /-- Register file of the device. -/
  regs : Nat → Nat
  /-- Register pointer of the device. -/
  pointer : Nat
  /-- Address given to the last `beginTransmission`. -/
  target : Nat
  /-- Bytes queued by `Wire.write` since `beginTransmission`. -/
  txBuffer : List Nat
  /-- Bytes received by `requestFrom` and not yet read. -/
  rxBuffer : List Nat

namespace Bus

/-- A device with the given address and register contents, the bus idle. -/
def device (address : Nat) (regs : Nat → Nat) : Bus :=
  ⟨address, regs, 0, 0, [], []⟩

/-- Store data bytes at consecutive registers from `p` on. -/
def storeFrom (regs : Nat → Nat) : Nat → List Nat → Nat → Nat
  | _, [] => regs
  | p, v :: vs => storeFrom (fun a => if a = p then v else regs a) (p + 1) vs

/-- The `n` bytes found at consecutive registers from `p` on. -/
def fetchFrom (regs : Nat → Nat) : Nat → Nat → List Nat
  | _, 0 => []
  | p, n + 1 => regs p % 256 :: fetchFrom regs (p + 1) n

/-- `Wire.beginTransmission(a)`. -/
def beginTransmission (b : Bus) (a : Nat) : Bus :=
  { b with target := a, txBuffer := [] }

/-- `Wire.write(v)`: queue one byte. -/
def write (b : Bus) (v : Nat) : Bus :=
  { b with txBuffer := b.txBuffer ++ [v % 256] }

/-- `Wire.endTransmission()`: the queued bytes go to the addressed device, the first as
register address, the others as data. -/
def endTransmission (b : Bus) : Bus :=
  if b.target = b.address then
    match b.txBuffer with
    | [] => b
    | r :: data =>
      { b with regs := storeFrom b.regs r data, pointer := r + data.length, txBuffer := [] }
  else
    { b with txBuffer := [] }

/-- `Wire.requestFrom(a, n)`. -/
def requestFrom (b : Bus) (a n : Nat) : Bus :=
  if a = b.address then
    { b with rxBuffer := fetchFrom b.regs b.pointer n, pointer := b.pointer + n }
  else
    { b with rxBuffer := [] }

/-- `Wire.available()`. -/
def available (b : Bus) : Nat :=
  b.rxBuffer.length

/-- `Wire.read()`, as the `uint8_t` every caller below converts it to (`-1`, returned
when nothing was received, converts to `255`). -/
def read (b : Bus) : Nat × Bus :=
  match b.rxBuffer with
  | [] => (255, b)
  | v :: rest => (v, { b with rxBuffer := rest })

/-- The busy wait `while (!Wire.available()) {};`: `none` when it never ends. -/
def waitAvailable (b : Bus) : Option Bus :=
  if b.available = 0 then none else some b

/-- The loop `for (int i = n - 1; i >= 0; i--) values[i] = f(Wire.read());`: the array
`values` it fills, as a list indexed from `0`. -/
def readDescending (f : Nat → Nat) : Nat → Bus → List Nat × Bus
  | 0, b => ([], b)
  | n + 1, b =>
    let r := b.read
    let rest := readDescending f n r.2
    (rest.1 ++ [f r.1], rest.2)

end Bus

/-! ## DS3231 real-time clock (src/DS3231_minimal.cpp)

`uint8_t` and `uint16_t` values are natural numbers reduced modulo `2 ^ 8` and
`2 ^ 16` where the program stores or converts them; `int` is the 16-bit `int` of the
AVR target, so arithmetic on `uint16_t` operands is modulo `2 ^ 16`.  A `const char*`
is the list of character codes it points to, `p + k` dropping `k` codes.
-/

/-- Fields of `struct RTCDateTime`. -/
structure RTCDateTime where
  year : Nat
  month : Nat
  day : Nat
  hour : Nat
  minute : Nat
  second : Nat
  dayOfWeek : Nat
  unixtime : Nat
  deriving DecidableEq, Repr

/-- Fields of `struct RTCAlarmTime`. -/
structure RTCAlarmTime where
  day : Nat
  hour : Nat
  minute : Nat
  second : Nat
  deriving DecidableEq, Repr

/-- The enumeration `DS3231_alarm1_t`. -/
inductive DS3231_alarm1_t where
  | DS3231_EVERY_SECOND
  | DS3231_MATCH_S
  | DS3231_MATCH_M_S
  | DS3231_MATCH_H_M_S
  | DS3231_MATCH_DT_H_M_S
  | DS3231_MATCH_DY_H_M_S
  deriving DecidableEq, Repr

/-- Value of an enumerator of `DS3231_alarm1_t`. -/
def DS3231_alarm1_t.toNat : DS3231_alarm1_t → Nat
  | .DS3231_EVERY_SECOND => 0b00001111
  | .DS3231_MATCH_S => 0b00001110
  | .DS3231_MATCH_M_S => 0b00001100
  | .DS3231_MATCH_H_M_S => 0b00001000
  | .DS3231_MATCH_DT_H_M_S => 0b00000000
  | .DS3231_MATCH_DY_H_M_S => 0b00010000

namespace DS3231

def DS3231_ADDRESS : Nat := 0x68
def DS3231_REG_TIME : Nat := 0x00
def DS3231_REG_ALARM_1 : Nat := 0x07
def DS3231_REG_CONTROL : Nat := 0x0E
def DS3231_REG_STATUS : Nat := 0x0F

/-- The table `daysArray`. -/
def daysArray : List Nat := [31, 28, 31, 30, 31, 30, 31, 31, 30, 31, 30, 31]

/-- The table `dowArray`. -/
def dowArray : List Nat := [0, 3, 2, 5, 0, 3, 5, 1, 4, 6, 2, 4]

/-- `pgm_read_byte(table + k)`; offsets outside the table are outside the model and
read as `0`. -/
def pgm_read_byte (table : List Nat) (k : Nat) : Nat :=
  table.getD k 0

/-- `DS3231::bcd2dec`. -/
def bcd2dec (bcd : Nat) : Nat :=
  ((bcd / 16) * 10 + bcd % 16) % 256

/-- `DS3231::dec2bcd`. -/
def dec2bcd (dec : Nat) : Nat :=
  ((dec / 10) * 16 + dec % 10) % 256

/-- `DS3231::isLeapYear`. -/
def isLeapYear (year : Nat) : Bool :=
  year % 4 == 0

/-- `DS3231::time2long`, as the 32-bit pattern of the `long` result. -/
def time2long (days hours minutes seconds : Nat) : Nat :=
  (((days * 24 + hours) * 60 + minutes) * 60 + seconds) % 2 ^ 32

/-- `DS3231::date2days`. -/
def date2days (year month day : Nat) : Nat :=
  let year := (year + 65536 - 2000) % 65536
  let days16 := (List.range (month - 1)).foldl
    (fun acc k => (acc + pgm_read_byte daysArray k) % 65536) day
  let days16 := if month = 2 ∧ isLeapYear year = true then (days16 + 1) % 65536 else days16
  (days16 + 365 * year + (year + 3) % 65536 / 4 + 65535) % 65536

/-- `DS3231::dow`. -/
def dow (y m d : Nat) : Nat :=
  let y := (y + 65536 - (if m < 3 then 1 else 0)) % 65536
  let dow := (y + y / 4 + (65536 - y / 100) + y / 400 + pgm_read_byte dowArray (m - 1) + d)
    % 65536 % 7
  if dow = 0 then 7 else dow

/-- `DS3231::unixtime`, from the member `t`. -/
def unixtime (t : RTCDateTime) : Nat :=
  (time2long (date2days t.year t.month t.day) t.hour t.minute t.second + 946681200) % 2 ^ 32

/-- `DS3231::conv2d`. -/
def conv2d (p : List Nat) : Nat :=
  let v := if 48 ≤ p.getD 0 0 ∧ p.getD 0 0 ≤ 57 then (p.getD 0 0 - 48) % 256 else 0
  (10 * v + p.getD 1 0 + 256 - 48) % 256

/-- `DS3231::writeRegister8`. -/
def writeRegister8 (reg value : Nat) (b : Bus) : Bus :=
  let b := b.beginTransmission DS3231_ADDRESS
  let b := b.write reg
  let b := b.write value
  b.endTransmission

/-- `DS3231::readRegister8`: the byte read and the bus afterwards. -/
def readRegister8 (reg : Nat) (b : Bus) : Option (Nat × Bus) :=
  let b := b.beginTransmission DS3231_ADDRESS
  let b := b.write reg
  let b := b.endTransmission
  let b := b.requestFrom DS3231_ADDRESS 1
  match b.waitAvailable with
  | none => none
  | some b =>
    let r := b.read
    some (r.1, r.2.endTransmission)

/-- `DS3231::setDateTime(uint16_t, uint8_t, uint8_t, uint8_t, uint8_t, uint8_t)`. -/
def setDateTime (year month day hour minute second : Nat) (b : Bus) : Bus :=
  let b := b.beginTransmission DS3231_ADDRESS
  let b := b.write DS3231_REG_TIME
  let b := b.write (dec2bcd second)
  let b := b.write (dec2bcd minute)
  let b := b.write (dec2bcd hour)
  let b := b.write (dec2bcd (dow year month day))
  let b := b.write (dec2bcd day)
  let b := b.write (dec2bcd month)
  let b := b.write (dec2bcd ((year + 65536 - 2000) % 256))
  let b := b.write DS3231_REG_TIME
  b.endTransmission

/-- The `switch (date[0])` of `setDateTime(const char*, const char*)`: the value given
to `month`, `none` when no case applies and `month` stays uninitialised. -/
def monthSwitch (date : List Nat) : Option Nat :=
  if date.getD 0 0 = 'J'.toNat then
    some (if date.getD 1 0 = 'a'.toNat then 1 else if date.getD 2 0 = 'n'.toNat then 6 else 7)
  else if date.getD 0 0 = 'F'.toNat then some 2
  else if date.getD 0 0 = 'A'.toNat then some (if date.getD 2 0 = 'r'.toNat then 4 else 8)
  else if date.getD 0 0 = 'M'.toNat then some (if date.getD 2 0 = 'r'.toNat then 3 else 5)
  else if date.getD 0 0 = 'S'.toNat then some 9
  else if date.getD 0 0 = 'O'.toNat then some 10
  else if date.getD 0 0 = 'N'.toNat then some 11
  else if date.getD 0 0 = 'D'.toNat then some 12
  else none

/-- The six arguments that `setDateTime(const char* date, const char* time)` passes on:
year, month, day, hour, minute, second. -/
def parseDateTime (date time : List Nat) : Option (Nat × Nat × Nat × Nat × Nat × Nat) :=
  let year := conv2d (date.drop 9)
  match monthSwitch date with
  | none => none
  | some month =>
    let day := conv2d (date.drop 4)
    let hour := conv2d time
    let minute := conv2d (time.drop 3)
    let second := conv2d (time.drop 6)
    some ((year + 2000) % 65536, month, day, hour, minute, second)

/-- `DS3231::setDateTime(const char* date, const char* time)`. -/
def setDateTimeOfStrings (date time : List Nat) (b : Bus) : Option Bus :=
  match parseDateTime date time with
  | none => none
  | some (year, month, day, hour, minute, second) =>
    some (setDateTime year month day hour minute second b)

/-- `DS3231::getDateTime`: the member `t`, which is also the value returned. -/
def getDateTime (b : Bus) : Option (RTCDateTime × Bus) :=
  let b := b.beginTransmission DS3231_ADDRESS
  let b := b.write DS3231_REG_TIME
  let b := b.endTransmission
  let b := b.requestFrom DS3231_ADDRESS 7
  match b.waitAvailable with
  | none => none
  | some b =>
    let r := Bus.readDescending bcd2dec 7 b
    let values := r.1
    let b := r.2.endTransmission
    let t : RTCDateTime :=
      { year := (values.getD 0 0 + 2000) % 65536
        month := values.getD 1 0
        day := values.getD 2 0
        dayOfWeek := values.getD 3 0
        hour := values.getD 4 0
        minute := values.getD 5 0
        second := values.getD 6 0
        unixtime := 0 }
    -- `t.unixtime = unixtime();` reads the fields just assigned, not the old `unixtime`
    some ({ t with unixtime := unixtime t }, b)

end DS3231

namespace DS3231

/-- `DS3231::setBattery`. -/
def setBattery (timeBattery sqwBattery : Bool) (b : Bus) : Option Bus :=
  match readRegister8 DS3231_REG_CONTROL b with
  | none => none
  | some (value, b) =>
    let value := if sqwBattery then value ||| 0b01000000 else value &&& 0b10111111
    let value := if timeBattery then value &&& 0b01111011 else value ||| 0b10000000
    some (writeRegister8 DS3231_REG_CONTROL value b)

/-- `DS3231::getInterruptSetting`. -/
def getInterruptSetting (b : Bus) : Option (Bool × Bus) :=
  match readRegister8 DS3231_REG_CONTROL b with
  | none => none
  | some (value, b) =>
    let value := value &&& 0b00000100
    let value := value >>> 2
    some (value == 0, b)

/-- `DS3231::setInterruptAlarm1`. -/
def setInterruptAlarm1 (armed : Bool) (b : Bus) : Option Bus :=
  match readRegister8 DS3231_REG_CONTROL b with
  | none => none
  | some (value, b) =>
    let value := if armed then value ||| 0b00000001 else value &&& 0b11111110
    some (writeRegister8 DS3231_REG_CONTROL value b)

/-- `DS3231::clearAlarm1`. -/
def clearAlarm1 (b : Bus) : Option Bus :=
  match readRegister8 DS3231_REG_STATUS b with
  | none => none
  | some (value, b) =>
    let value := value &&& 0b11111110
    some (writeRegister8 DS3231_REG_STATUS value b)

/-- The `switch (alarmMode)` of `setAlarm1`: the bytes `second`, `minute`, `hour`, `dydw`
after it. -/
def alarm1Bytes (second minute hour dydw : Nat) : DS3231_alarm1_t → Nat × Nat × Nat × Nat
  | .DS3231_EVERY_SECOND =>
    (second ||| 0b10000000, minute ||| 0b10000000, hour ||| 0b10000000, dydw ||| 0b10000000)
  | .DS3231_MATCH_S =>
    (second &&& 0b01111111, minute ||| 0b10000000, hour ||| 0b10000000, dydw ||| 0b10000000)
  | .DS3231_MATCH_M_S =>
    (second &&& 0b01111111, minute &&& 0b01111111, hour ||| 0b10000000, dydw ||| 0b10000000)
  | .DS3231_MATCH_H_M_S =>
    (second &&& 0b01111111, minute &&& 0b01111111, hour &&& 0b01111111, dydw ||| 0b10000000)
  | .DS3231_MATCH_DT_H_M_S =>
    (second &&& 0b01111111, minute &&& 0b01111111, hour &&& 0b01111111, dydw &&& 0b01111111)
  | .DS3231_MATCH_DY_H_M_S =>
    (second &&& 0b01111111, minute &&& 0b01111111, hour &&& 0b01111111,
      (dydw &&& 0b01111111) ||| 0b01000000)

/-- `DS3231::setAlarm1`. -/
def setAlarm1 (dydw hour minute second : Nat) (alarmMode : DS3231_alarm1_t)
    (interruptEnable : Bool) (b : Bus) : Option Bus :=
  let second := dec2bcd second
  let minute := dec2bcd minute
  let hour := dec2bcd hour
  let dydw := dec2bcd dydw
  let s := alarm1Bytes second minute hour dydw alarmMode
  let b := b.beginTransmission DS3231_ADDRESS
  let b := b.write DS3231_REG_ALARM_1
  let b := b.write s.1
  let b := b.write s.2.1
  let b := b.write s.2.2.1
  let b := b.write s.2.2.2
  let b := b.endTransmission
  match setInterruptAlarm1 interruptEnable b with
  | none => none
  | some b => clearAlarm1 b

/-- `DS3231::getAlarm1`. -/
def getAlarm1 (b : Bus) : Option (RTCAlarmTime × Bus) :=
  let b := b.beginTransmission DS3231_ADDRESS
  let b := b.write DS3231_REG_ALARM_1
  let b := b.endTransmission
  let b := b.requestFrom DS3231_ADDRESS 4
  match b.waitAvailable with
  | none => none
  | some b =>
    let r := Bus.readDescending (fun v => bcd2dec (v &&& 0b01111111)) 4 b
    let values := r.1
    let b := r.2.endTransmission
    some (⟨values.getD 0 0, values.getD 1 0, values.getD 2 0, values.getD 3 0⟩, b)

/-- `DS3231::getAlarmType1`: the value of the `DS3231_alarm1_t` returned. -/
def getAlarmType1 (b : Bus) : Option (Nat × Bus) :=
  let mode := 0
  let b := b.beginTransmission DS3231_ADDRESS
  let b := b.write DS3231_REG_ALARM_1
  let b := b.endTransmission
  let b := b.requestFrom DS3231_ADDRESS 4
  match b.waitAvailable with
  | none => none
  | some b =>
    let r := Bus.readDescending bcd2dec 4 b
    let values := r.1
    let b := r.2.endTransmission
    let mode := mode ||| ((values.getD 3 0 &&& 0b01000000) >>> 6)
    let mode := mode ||| ((values.getD 2 0 &&& 0b01000000) >>> 5)
    let mode := mode ||| ((values.getD 1 0 &&& 0b01000000) >>> 4)
    let mode := mode ||| ((values.getD 0 0 &&& 0b01000000) >>> 3)
    let mode := mode ||| ((values.getD 0 0 &&& 0b00100000) >>> 1)
    some (mode, b)

end DS3231

/-! ## MPU6050 inertial sensor (src/MPU6050_minimal.cpp) -/

/-- State of an `MPU6050` object: the member `devAddr`. -/
structure MPU6050 where
  devAddr : Nat

namespace MPU6050

def MPU6050_RA_PWR_MGMT_1 : Nat := 0x6B
def MPU6050_RA_GYRO_CONFIG : Nat := 0x1B
def MPU6050_RA_ACCEL_CONFIG : Nat := 0x1C
def MPU6050_RA_CONFIG : Nat := 0x1A
def MPU6050_RA_USER_CTRL : Nat := 0x6A
def MPU6050_RA_INT_PIN_CFG : Nat := 0x37

/-- `MPU6050::readByte`. -/
def readByte (devAddr regAddr : Nat) (b : Bus) : Nat × Bus :=
  let b := b.beginTransmission devAddr
  let b := b.write regAddr
  let b := b.endTransmission
  let b := b.requestFrom devAddr 1
  b.read

/-- `MPU6050::writeByte`. -/
def writeByte (devAddr regAddr byteToWrite : Nat) (b : Bus) : Bus :=
  let b := b.beginTransmission devAddr
  let b := b.write regAddr
  let b := b.write byteToWrite
  b.endTransmission

/-- `MPU6050::writeBit`. -/
def writeBit (devAddr regAddr bitNum bitToWrite : Nat) (b : Bus) : Bus :=
  let r := readByte devAddr regAddr b
  let byteToWrite := r.1
  let byteToWrite :=
    if bitToWrite ≠ 0 then (bitToWrite ||| (1 <<< bitNum)) % 256
    else byteToWrite &&& (255 ^^^ ((1 <<< bitNum) % 256))
  writeByte devAddr regAddr byteToWrite r.2

/-- `MPU6050::writeBits`; the shift `bitStart - length + 1` is taken non-negative, as it
is in every call. -/
def writeBits (devAddr regAddr bitStart length data : Nat) (b : Bus) : Bus :=
  let r := readByte devAddr regAddr b
  let mask := (((1 <<< length) - 1) <<< (bitStart + 1 - length)) % 256
  let data := (data <<< (bitStart + 1 - length)) % 256
  let data := data &&& mask
  let v := r.1 &&& (255 ^^^ mask)
  let v := v ||| data
  writeByte devAddr regAddr v r.2

/-- The member function `initialize` of `MPU6050` (that name is reserved here). -/
def initializeDevice (self : MPU6050) (b : Bus) : Bus :=
  let b := writeBit self.devAddr MPU6050_RA_PWR_MGMT_1 6 0 b
  let b := writeBit self.devAddr MPU6050_RA_PWR_MGMT_1 7 1 b
  let b := writeBits self.devAddr MPU6050_RA_PWR_MGMT_1 2 2 1 b
  let b := writeBits self.devAddr MPU6050_RA_GYRO_CONFIG 4 2 0 b
  let b := writeBits self.devAddr MPU6050_RA_ACCEL_CONFIG 4 2 0 b
  let b := writeBits self.devAddr MPU6050_RA_ACCEL_CONFIG 4 2 0 b
  writeBit self.devAddr MPU6050_RA_PWR_MGMT_1 6 0 b

/-- `MPU6050::setBypass`. -/
def setBypass (self : MPU6050) (enable : Nat) (b : Bus) : Bus :=
  let _ := enable
  let b := writeBit self.devAddr MPU6050_RA_USER_CTRL 5 0 b
  let b := writeBit self.devAddr MPU6050_RA_INT_PIN_CFG 1 1 b
  writeBit self.devAddr MPU6050_RA_PWR_MGMT_1 6 0 b

end MPU6050

/-! ## `double` arithmetic (IEEE 754 binary formats, round to nearest, ties to even)

The interpolator computes in `double`.  A `double` is a NaN, an infinity or a finite
number given by sign and magnitude (the magnitude `0` gives the two zeros).  Every
arithmetic operation returns the exact result rounded to the format: to nearest, ties to
the even significand, with gradual underflow and with overflow to infinity.  The format
is a parameter: `binary64` where `double` has 64 bits, `binary32` where it has 32 (AVR).
Comparisons are exact and are false as soon as an operand is NaN.
-/

/-- A value of type `double`: NaN, an infinity with its sign, or a finite number with its
sign and its magnitude (a rational `≥ 0`). -/
inductive Double where
  | nan
  | inf (neg : Bool)
  | fin (neg : Bool) (mag : ℚ)
  deriving DecidableEq, Repr

namespace Double

/-- The rational with the given sign and magnitude. -/
def signed (neg : Bool) (mag : ℚ) : ℚ :=
  if neg then -mag else mag

/-- Unary minus. -/
def neg : Double → Double
  | nan => nan
  | inf s => inf (!s)
  | fin s m => fin (!s) m

/-- Position of a `double` that is not NaN on the extended number line. -/
def rank : Double → WithBot (WithTop ℚ)
  | nan => 0
  | inf true => ⊥
  | inf false => ((⊤ : WithTop ℚ) : WithBot (WithTop ℚ))
  | fin s x => ((signed s x : ℚ) : WithTop ℚ)

/-- The operand is NaN. -/
def isNaN : Double → Bool
  | nan => true
  | _ => false

/-- Comparison `a <= b`: false when an operand is NaN. -/
def le (a b : Double) : Bool :=
  !a.isNaN && !b.isNaN && decide (a.rank ≤ b.rank)

/-- Comparison `a < b`: false when an operand is NaN. -/
def lt (a b : Double) : Bool :=
  !a.isNaN && !b.isNaN && decide (a.rank < b.rank)

end Double

/-- State of a `LookupTable1D` object whose samples are `double` values. -/
structure LookupTable1DF (w : Nat) where
  inputValues_ : Nat → Double
  outputValues_ : Nat → Double
  size_ : Nat
  size_lt : size_ < 2 ^ w

namespace LookupTable1DF

variable {w : Nat}

/-- Constructor applied to two arrays given as lists (offsets past the end read as `+0`). -/
def ofLists (w : Nat) (inputValues outputValues : List Double) (size : Nat)
    (h : size < 2 ^ w) : LookupTable1DF w :=
  ⟨fun i => inputValues.getD i (Double.fin false 0),
    fun i => outputValues.getD i (Double.fin false 0), size, h⟩

/-- The loop bound `size_ - 1` in `size_t` arithmetic. -/
def loopBound (t : LookupTable1DF w) : Nat :=
  (t.size_ + 2 ^ w - 1) % 2 ^ w

/-- The loop of `findClosestIndex` on `double` operands, entered with loop variable `i`;
`inputValue >= inputValues_[i]` is `inputValues_[i] <= inputValue`. -/
def findLoopF (t : LookupTable1DF w) (inputValue : Double) (i : Nat) :
    Option Nat × List Read :=
  if i < t.loopBound then
    if Double.le (t.inputValues_ i) inputValue = true then
      if Double.le inputValue (t.inputValues_ (i + 1)) = true then
        (some i, [Read.inputValues i, Read.inputValues (i + 1)])
      else
        let r := findLoopF t inputValue (i + 1)
        (r.1, Read.inputValues i :: Read.inputValues (i + 1) :: r.2)
    else
      let r := findLoopF t inputValue (i + 1)
      (r.1, Read.inputValues i :: r.2)
  else
    (none, [])
termination_by t.loopBound - i

/-- `LookupTable1D::findClosestIndex` on `double` operands. -/
def findClosestIndexF (t : LookupTable1DF w) (inputValue : Double) : Nat × Effects :=
  let r := findLoopF t inputValue 0
  match r.1 with
  | some i => (i, ⟨r.2, []⟩)
  | none => (0, ⟨r.2, ["Error: Failed to find closest index."]⟩)

/-- Interval `i` brackets the query: `inputValues_[i] <= q` and `q <= inputValues_[i+1]`. -/
def BracketsF (t : LookupTable1DF w) (q : Double) (i : Nat) : Prop :=
  Double.le (t.inputValues_ i) q = true ∧ Double.le q (t.inputValues_ (i + 1)) = true

/-- Domain samples non-decreasing (sorted) over the `size_` samples. -/
def SortedF (t : LookupTable1DF w) : Prop :=
  ∀ i, i + 1 < t.size_ → Double.le (t.inputValues_ i) (t.inputValues_ (i + 1)) = true

/-- The worked example of the specification as `double` values: domain `[0,10,20]`,
range `[0,100,300]`. -/
def exampleTableF : LookupTable1DF 16 :=
  ofLists 16 [.fin false 0, .fin false 10, .fin false 20]
    [.fin false 0, .fin false 100, .fin false 300] 3 (by norm_num)

end LookupTable1DF

/-! ### Inputs used in the statements below -/

/-- Character codes of a string, as the `const char*` handed to the program. -/
def cstr (s : String) : List Nat :=
  s.data.map Char.toNat

namespace DS3231

/-- The month abbreviations of the documented date format `Mmm dd yyyy`, in calendar order. -/
def monthNames : List String :=
  ["Jan", "Feb", "Mar", "Apr", "May", "Jun", "Jul", "Aug", "Sep", "Oct", "Nov", "Dec"]

/-- The character code is that of a decimal digit `0`..`9`. -/
def IsDigit (c : Nat) : Prop :=
  48 ≤ c ∧ c ≤ 57

instance (c : Nat) : Decidable (IsDigit c) := by
  unfold IsDigit; infer_instance

/-- Value of a character of the day field: a space counts as `0`, a digit as itself. -/
def padValue (c : Nat) : Nat :=
  if c = 32 then 0 else c - 48

/-- A clock at address `0x68` with every register zero. -/
def freshDevice : Bus :=
  Bus.device DS3231_ADDRESS (fun _ => 0)

/-- A clock at address `0x68` whose registers all hold `0b00000100` (INTCN set in the
control register). -/
def intcnDevice : Bus :=
  Bus.device DS3231_ADDRESS (fun _ => 0b00000100)

end DS3231

namespace MPU6050

/-- A sensor at address `0x68` with every register zero (the reset value of `CONFIG` and
of `INT_PIN_CFG`). -/
def freshDevice : Bus :=
  Bus.device 0x68 (fun _ => 0)

end MPU6050

/-! ### The bracket search -/

namespace LookupTable1D

variable {w : Nat}

theorem loopBound_eq (t : LookupTable1D w) (h : 1 ≤ t.size_) : t.loopBound = t.size_ - 1 := by
  have hlt := t.size_lt
  unfold loopBound
  have e : t.size_ + 2 ^ w - 1 = (t.size_ - 1) + 2 ^ w := by omega
  rw [e, Nat.add_mod_right, Nat.mod_eq_of_lt (by omega)]

theorem findLoop_some (t : LookupTable1D w) (q : ℚ) (i k : Nat)
    (h : (findLoop t q i).1 = some k) :
    i ≤ k ∧ k < t.loopBound ∧ t.Brackets q k ∧ ∀ j, i ≤ j → j < k → ¬ t.Brackets q j := by
  induction i using findLoop.induct t q with
  | case1 i hb h1 h2 =>
    rw [findLoop] at h
    simp only [hb, h1, h2, if_true] at h
    cases h
    exact ⟨le_refl _, hb, ⟨h1, h2⟩, fun j hj hjk => absurd hjk (by omega)⟩
  | case2 i hb h1 h2 ih =>
    rw [findLoop] at h
    simp only [hb, h1, h2, if_true, if_false] at h
    obtain ⟨a, b, c, d⟩ := ih h
    refine ⟨by omega, b, c, fun j hj hjk => ?_⟩
    rcases Nat.eq_or_lt_of_le hj with e | e
    · subst e; exact fun hbr => h2 hbr.2
    · exact d j e hjk
  | case3 i hb h1 ih =>
    rw [findLoop] at h
    simp only [hb, h1, if_true, if_false] at h
    obtain ⟨a, b, c, d⟩ := ih h
    refine ⟨by omega, b, c, fun j hj hjk => ?_⟩
    rcases Nat.eq_or_lt_of_le hj with e | e
    · subst e; exact fun hbr => h1 hbr.1
    · exact d j e hjk
  | case4 i hb =>
    rw [findLoop] at h
    simp only [hb, if_false] at h
    cases h

theorem findLoop_none (t : LookupTable1D w) (q : ℚ) (i : Nat)
    (h : (findLoop t q i).1 = none) :
    ∀ j, i ≤ j → j < t.loopBound → ¬ t.Brackets q j := by
  induction i using findLoop.induct t q with
  | case1 i hb h1 h2 =>
    rw [findLoop] at h
    simp only [hb, h1, h2, if_true] at h
    cases h
  | case2 i hb h1 h2 ih =>
    rw [findLoop] at h
    simp only [hb, h1, h2, if_true, if_false] at h
    intro j hj hjb
    rcases Nat.eq_or_lt_of_le hj with e | e
    · subst e; exact fun hbr => h2 hbr.2
    · exact ih h j e hjb
  | case3 i hb h1 ih =>
    rw [findLoop] at h
    simp only [hb, h1, if_true, if_false] at h
    intro j hj hjb
    rcases Nat.eq_or_lt_of_le hj with e | e
    · subst e; exact fun hbr => h1 hbr.1
    · exact ih h j e hjb
  | case4 i hb =>
    intro j hj hjb
    omega

theorem findLoop_reads (t : LookupTable1D w) (q : ℚ) (i : Nat) :
    ∀ r ∈ (findLoop t q i).2, r.pos ≤ t.loopBound := by
  induction i using findLoop.induct t q with
  | case1 i hb h1 h2 =>
    rw [findLoop]
    simp only [hb, h1, h2, if_true]
    intro r hr
    simp only [List.mem_cons, List.mem_singleton, List.not_mem_nil, or_false] at hr
    rcases hr with e | e <;> subst e <;> simp only [Read.pos] <;> omega
  | case2 i hb h1 h2 ih =>
    rw [findLoop]
    simp only [hb, h1, h2, if_true, if_false]
    intro r hr
    simp only [List.mem_cons] at hr
    rcases hr with e | e | e
    · subst e; simp only [Read.pos]; omega
    · subst e; simp only [Read.pos]; omega
    · exact ih r e
  | case3 i hb h1 ih =>
    rw [findLoop]
    simp only [hb, h1, if_true, if_false]
    intro r hr
    simp only [List.mem_cons] at hr
    rcases hr with e | e
    · subst e; simp only [Read.pos]; omega
    · exact ih r e
  | case4 i hb =>
    rw [findLoop]
    simp only [hb, if_false]
    intro r hr
    cases hr

end LookupTable1D

namespace LookupTable1D

variable {w : Nat}

/-- The two ways `findClosestIndex` can end: `return i` from the loop at the first
bracketing interval, or the fallback `return 0` after the diagnostic. -/
theorem findClosestIndex_cases (t : LookupTable1D w) (q : ℚ) :
    (∃ k, (t.findClosestIndex q).1 = k ∧ (t.findClosestIndex q).2.serial = [] ∧
        k < t.loopBound ∧ t.Brackets q k ∧ ∀ j, j < k → ¬ t.Brackets q j) ∨
    ((t.findClosestIndex q).1 = 0 ∧
        (t.findClosestIndex q).2.serial = ["Error: Failed to find closest index."] ∧
        ∀ j, j < t.loopBound → ¬ t.Brackets q j) := by
  cases h : (findLoop t q 0).1 with
  | none =>
    right
    refine ⟨?_, ?_, fun j hj => findLoop_none t q 0 h j (Nat.zero_le _) hj⟩
    · simp only [findClosestIndex, h]
    · simp only [findClosestIndex, h]
  | some k =>
    left
    obtain ⟨_, hb, hbr, hmin⟩ := findLoop_some t q 0 k h
    refine ⟨k, ?_, ?_, hb, hbr, fun j hj => hmin j (Nat.zero_le _) hj⟩
    · simp only [findClosestIndex, h]
    · simp only [findClosestIndex, h]

theorem findClosestIndex_reads (t : LookupTable1D w) (q : ℚ) :
    ∀ r ∈ (t.findClosestIndex q).2.reads, r.pos ≤ t.loopBound := by
  have h := findLoop_reads t q 0
  cases c : (findLoop t q 0).1 <;> simp only [findClosestIndex, c] <;> exact h

/-- The index returned is the least bracketing interval, when one is known. -/
theorem findClosestIndex_eq_of_least (t : LookupTable1D w) (q : ℚ) (k : Nat)
    (hs : 1 ≤ t.size_) (hk : k + 1 < t.size_) (hbr : t.Brackets q k)
    (hmin : ∀ j, j < k → ¬ t.Brackets q j) :
    (t.findClosestIndex q).1 = k ∧ (t.findClosestIndex q).2.serial = [] := by
  have hb := loopBound_eq t hs
  rcases findClosestIndex_cases t q with ⟨k2, e, es, hk2, hbr2, hmin2⟩ | ⟨_, _, hno⟩
  · refine ⟨?_, es⟩
    rw [e]
    rcases Nat.lt_trichotomy k2 k with c | c | c
    · exact absurd hbr2 (hmin k2 c)
    · exact c
    · exact absurd hbr (hmin2 k c)
  · exact absurd hbr (hno k (by omega))

theorem strictlyIncreasing_lt (t : LookupTable1D w) (h : t.StrictlyIncreasing) (i j : Nat)
    (hij : i < j) (hj : j < t.size_) : t.inputValues_ i < t.inputValues_ j := by
  induction j with
  | zero => omega
  | succ n ih =>
    rcases Nat.eq_or_lt_of_le (Nat.lt_succ_iff.mp hij) with e | e
    · subst e; exact h i hj
    · exact lt_trans (ih e (by omega)) (h n hj)

theorem sorted_le (t : LookupTable1D w) (h : t.Sorted) (i j : Nat)
    (hij : i ≤ j) (hj : j < t.size_) : t.inputValues_ i ≤ t.inputValues_ j := by
  induction j with
  | zero =>
    have e : i = 0 := by omega
    subst e; exact le_refl _
  | succ n ih =>
    rcases Nat.eq_or_lt_of_le hij with e | e
    · subst e; exact le_refl _
    · exact le_trans (ih (by omega) (by omega)) (h n hj)

/-- A query between the first sample and sample `k` is bracketed by an interval below `k`. -/
theorem exists_bracket (t : LookupTable1D w) (q : ℚ) (h0 : t.inputValues_ 0 ≤ q) (k : Nat)
    (hk : 1 ≤ k) (hq : q ≤ t.inputValues_ k) : ∃ i, i + 1 ≤ k ∧ t.Brackets q i := by
  induction k with
  | zero => omega
  | succ n ih =>
    by_cases c : t.inputValues_ n ≤ q
    · exact ⟨n, le_refl _, c, hq⟩
    · have hn : 1 ≤ n := by
        rcases Nat.eq_zero_or_pos n with e | e
        · subst e; exact absurd h0 c
        · exact e
      obtain ⟨i, hi, hbr⟩ := ih hn (le_of_lt (not_le.mp c))
      exact ⟨i, by omega, hbr⟩

/-- Value of the interpolation once the selected index is known. -/
theorem interpolate_val (t : LookupTable1D w) (q : ℚ) :
    (t.interpolate q).1 =
      segmentValue (t.inputValues_ (t.findClosestIndex q).1)
        (t.inputValues_ ((t.findClosestIndex q).1 + 1))
        (t.outputValues_ (t.findClosestIndex q).1)
        (t.outputValues_ ((t.findClosestIndex q).1 + 1)) q := by
  simp only [interpolate, segmentValue]
  by_cases c : t.inputValues_ (t.findClosestIndex q).1 =
      t.inputValues_ ((t.findClosestIndex q).1 + 1)
  · rw [if_pos c, if_pos (by rw [c, sub_self])]
  · rw [if_neg c, if_neg (fun hz => c (sub_eq_zero.mp hz).symm)]

/-- The fallback is taken exactly when no interval of the table brackets the query. -/
theorem fallback_iff_no_bracket (t : LookupTable1D w) (q : ℚ) (hn : 1 ≤ t.size_) :
    (t.findClosestIndex q).2.serial = ["Error: Failed to find closest index."] ↔
      ∀ i, i + 1 < t.size_ → ¬ t.Brackets q i := by
  have hb := loopBound_eq t hn
  rcases findClosestIndex_cases t q with ⟨k, _, es, hk, hbr, _⟩ | ⟨_, es, hno⟩
  · constructor
    · intro h; rw [es] at h; cases h
    · intro h; exact absurd hbr (h k (by omega))
  · exact ⟨fun _ i hi => hno i (by omega), fun _ => es⟩

/-- Without a bracketing interval the index returned is `0`. -/
theorem index_zero_of_no_bracket (t : LookupTable1D w) (q : ℚ) (hn : 1 ≤ t.size_)
    (h : ∀ i, i + 1 < t.size_ → ¬ t.Brackets q i) : (t.findClosestIndex q).1 = 0 := by
  have hb := loopBound_eq t hn
  rcases findClosestIndex_cases t q with ⟨k, _, _, hk, hbr, _⟩ | ⟨e, _, _⟩
  · exact absurd hbr (h k (by omega))
  · exact e

/-- On a sorted table the intervals bracket exactly the queries of the sampled range. -/
theorem no_bracket_iff_out_of_range (t : LookupTable1D w) (q : ℚ) (hs : t.Sorted)
    (hn : 2 ≤ t.size_) :
    (∀ i, i + 1 < t.size_ → ¬ t.Brackets q i) ↔
      (q < t.inputValues_ 0 ∨ t.inputValues_ (t.size_ - 1) < q) := by
  constructor
  · intro h
    by_contra c
    rw [not_or, not_lt, not_lt] at c
    obtain ⟨i, hi, hbr⟩ := exists_bracket t q c.1 (t.size_ - 1) (by omega) c.2
    exact h i (by omega) hbr
  · rintro (c | c) i hi hbr
    · exact absurd (lt_of_le_of_lt (le_trans (sorted_le t hs 0 i (Nat.zero_le _) (by omega))
        hbr.1) c) (lt_irrefl _)
    · exact absurd (lt_of_le_of_lt (le_trans hbr.2
        (sorted_le t hs (i + 1) (t.size_ - 1) (by omega) (by omega))) c) (lt_irrefl _)

/-- On a strictly increasing table a knot `k ≥ 1` is answered from interval `k - 1`,
and the first knot from interval `0`. -/
theorem index_at_knot (t : LookupTable1D w) (hs : t.StrictlyIncreasing) (hn : 2 ≤ t.size_)
    (k : Nat) (hk : k < t.size_) :
    (t.findClosestIndex (t.inputValues_ k)).1 = k - 1 := by
  rcases Nat.eq_zero_or_pos k with e | e
  · subst e
    exact (findClosestIndex_eq_of_least t _ 0 (by omega) (by omega)
      ⟨le_refl _, le_of_lt (hs 0 (by omega))⟩ (fun j hj => absurd hj (by omega))).1
  · have e1 : k - 1 + 1 = k := by omega
    refine (findClosestIndex_eq_of_least t _ (k - 1) (by omega) (by omega) ⟨?_, ?_⟩ ?_).1
    · exact le_of_lt (strictlyIncreasing_lt t hs (k - 1) k (by omega) hk)
    · rw [e1]
    · intro j hj hbr
      exact absurd (lt_of_le_of_lt hbr.2 (strictlyIncreasing_lt t hs (j + 1) k (by omega) hk))
        (lt_irrefl _)

theorem segmentValue_of_ne (x0 x1 y0 y1 q : ℚ) (h : x0 ≠ x1) :
    segmentValue x0 x1 y0 y1 q = some (y0 + (y1 - y0) * (q - x0) / (x1 - x0)) := by
  rw [segmentValue, if_neg h]

theorem exampleTable_strictlyIncreasing : exampleTable.StrictlyIncreasing := by
  intro i hi
  have h3 : i + 1 < 3 := hi
  have h2 : i < 2 := by omega
  interval_cases i <;> norm_num [exampleTable, ofLists]

theorem exampleTable_size : exampleTable.size_ = 3 := rfl

/-! ### Claims about the interpolator -/

/-- C1: for every table and every query, `interpolate` returns
`y0 + (y1 - y0) * (q - x0) / (x1 - x0)` for the samples at `i = findClosestIndex(q)` and
`i + 1` (no value when `x0 = x1`); on inputs `[0,10,20]`, outputs `[0,100,300]`,
`interpolate(5) = 50` and `interpolate(15) = 200`. -/
theorem interpolate_formula :
    (∀ (w : Nat) (t : LookupTable1D w) (q : ℚ),
      (t.interpolate q).1 =
        segmentValue (t.inputValues_ (t.findClosestIndex q).1)
          (t.inputValues_ ((t.findClosestIndex q).1 + 1))
          (t.outputValues_ (t.findClosestIndex q).1)
          (t.outputValues_ ((t.findClosestIndex q).1 + 1)) q) ∧
    (exampleTable.interpolate 5).1 = some 50 ∧
    (exampleTable.interpolate 15).1 = some 200 := by
  refine ⟨fun w t q => interpolate_val t q, ?_, ?_⟩
  · simp [interpolate, findClosestIndex, findLoop, loopBound, exampleTable, ofLists]
    norm_num
  · simp [interpolate, findClosestIndex, findLoop, loopBound, exampleTable, ofLists]
    norm_num

/-- C2: with `count >= 2`, when some interval `i` in `0..count-2` brackets the query
(both ends inclusive), `findClosestIndex` returns the least such interval. -/
theorem findClosestIndex_least_bracket (t : LookupTable1D w) (q : ℚ) (hn : 2 ≤ t.size_)
    (h : ∃ i, i + 1 < t.size_ ∧ t.Brackets q i) :
    (t.findClosestIndex q).1 + 1 < t.size_ ∧ t.Brackets q (t.findClosestIndex q).1 ∧
      ∀ j, j < (t.findClosestIndex q).1 → ¬ t.Brackets q j := by
  have hb := loopBound_eq t (by omega)
  obtain ⟨i, hi, hbr⟩ := h
  rcases findClosestIndex_cases t q with ⟨k, e, _, hk, hbr2, hmin⟩ | ⟨_, _, hno⟩
  · rw [e]; exact ⟨by omega, hbr2, hmin⟩
  · exact absurd hbr (hno i (by omega))

/-- Witness of C2: the query `10` is bracketed by both intervals of the example table and
interval `0` is returned. -/
theorem findClosestIndex_least_bracket_witness :
    (2 ≤ exampleTable.size_ ∧ ∃ i, i + 1 < exampleTable.size_ ∧ exampleTable.Brackets 10 i) ∧
    ((exampleTable.findClosestIndex 10).1 + 1 < exampleTable.size_ ∧
      exampleTable.Brackets 10 (exampleTable.findClosestIndex 10).1 ∧
      ∀ j, j < (exampleTable.findClosestIndex 10).1 → ¬ exampleTable.Brackets 10 j) :=
  ⟨⟨by decide, 1, by decide, by norm_num [Brackets, exampleTable, ofLists]⟩,
    findClosestIndex_least_bracket exampleTable 10 (by decide)
      ⟨1, by decide, by norm_num [Brackets, exampleTable, ofLists]⟩⟩

/-- C6 (amended): on a table with `count >= 1`, when no interval brackets the query,
`findClosestIndex` prints the diagnostic and returns index `0`, and `interpolate` returns the line of the first interval evaluated at
the query, `outputValues[0] + (outputValues[1] - outputValues[0]) * (q - inputValues[0]) /
(inputValues[1] - inputValues[0])`, whether the query is below or above the range. -/
theorem fallback_uses_first_interval (t : LookupTable1D w) (q : ℚ) (hn : 1 ≤ t.size_)
    (h : ∀ i, i + 1 < t.size_ → ¬ t.Brackets q i) :
    (t.findClosestIndex q).1 = 0 ∧
    (t.findClosestIndex q).2.serial = ["Error: Failed to find closest index."] ∧
    (t.interpolate q).1 =
      segmentValue (t.inputValues_ 0) (t.inputValues_ 1) (t.outputValues_ 0)
        (t.outputValues_ 1) q := by
  have e := index_zero_of_no_bracket t q hn h
  refine ⟨e, (fallback_iff_no_bracket t q hn).mpr h, ?_⟩
  rw [interpolate_val, e]

/-- Witness of C6 (amended): on inputs `[0,10,20]`, outputs `[0,100,300]` the out-of-range query `25`
takes the fallback to index `0` and `interpolate(25) = 250`. -/
theorem fallback_uses_first_interval_witness :
    (1 ≤ exampleTable.size_ ∧
      ∀ i, i + 1 < exampleTable.size_ → ¬ exampleTable.Brackets 25 i) ∧
    (exampleTable.findClosestIndex 25).1 = 0 ∧
    (exampleTable.findClosestIndex 25).2.serial = ["Error: Failed to find closest index."] ∧
    (exampleTable.interpolate 25).1 = some 250 := by
  have hno : ∀ i, i + 1 < exampleTable.size_ → ¬ exampleTable.Brackets 25 i := by
    intro i hi
    have h3 : i + 1 < 3 := hi
    have h2 : i < 2 := by omega
    interval_cases i <;> norm_num [Brackets, exampleTable, ofLists]
  obtain ⟨a, b, c⟩ := fallback_uses_first_interval exampleTable 25 (by decide) hno
  refine ⟨⟨by decide, hno⟩, a, b, ?_⟩
  rw [c]
  norm_num [segmentValue, exampleTable, ofLists]

/-- C7: on a strictly increasing table with `count >= 3`, for an interior sample index
`k` with `1 <= k <= count-2` the query `inputValues[k]` lies on the boundary shared by the
intervals `k-1` and `k`, and `findClosestIndex` returns the lower one, `k-1`. -/
theorem shared_boundary_selects_lower (t : LookupTable1D w) (hs : t.StrictlyIncreasing)
    (hn : 3 ≤ t.size_) (k : Nat) (hk1 : 1 ≤ k) (hk2 : k + 2 ≤ t.size_) :
    (t.findClosestIndex (t.inputValues_ k)).1 = k - 1 ∧
    t.Brackets (t.inputValues_ k) (k - 1) ∧ t.Brackets (t.inputValues_ k) k := by
  have e1 : k - 1 + 1 = k := by omega
  refine ⟨index_at_knot t hs (by omega) k (by omega), ⟨?_, ?_⟩, ⟨le_refl _, ?_⟩⟩
  · exact le_of_lt (strictlyIncreasing_lt t hs (k - 1) k (by omega) (by omega))
  · rw [e1]
  · exact le_of_lt (hs k (by omega))

/-- Witness of C7: the interior knot `10` (index `1`) of the example table selects interval `0`. -/
theorem shared_boundary_selects_lower_witness :
    (exampleTable.StrictlyIncreasing ∧ 3 ≤ exampleTable.size_ ∧ 1 ≤ 1 ∧
      1 + 2 ≤ exampleTable.size_) ∧
    ((exampleTable.findClosestIndex (exampleTable.inputValues_ 1)).1 = 1 - 1 ∧
    exampleTable.Brackets (exampleTable.inputValues_ 1) (1 - 1) ∧
    exampleTable.Brackets (exampleTable.inputValues_ 1) 1) :=
  ⟨⟨exampleTable_strictlyIncreasing, by decide, by decide, by decide⟩,
    shared_boundary_selects_lower exampleTable exampleTable_strictlyIncreasing (by decide) 1
      (by decide) (by decide)⟩

/-- C9: with `count >= 2`, for every query (bracketed or not) `findClosestIndex` returns
an index `i <= count-2`, and every sample read made by `interpolate`, the four reads of
`inputValues[i]`, `inputValues[i+1]`, `outputValues[i]`, `outputValues[i+1]` included, is
at a position below `count`. -/
theorem index_and_reads_in_bounds (t : LookupTable1D w) (q : ℚ) (hn : 2 ≤ t.size_) :
    (t.findClosestIndex q).1 ≤ t.size_ - 2 ∧
    (t.interpolate q).2.reads = (t.findClosestIndex q).2.reads ++
      [Read.inputValues (t.findClosestIndex q).1,
       Read.inputValues ((t.findClosestIndex q).1 + 1),
       Read.outputValues (t.findClosestIndex q).1,
       Read.outputValues ((t.findClosestIndex q).1 + 1)] ∧
    ∀ r ∈ (t.interpolate q).2.reads, r.pos < t.size_ := by
  have hb := loopBound_eq t (by omega)
  have hidx : (t.findClosestIndex q).1 ≤ t.size_ - 2 := by
    rcases findClosestIndex_cases t q with ⟨k, e, _, hk, _, _⟩ | ⟨e, _, _⟩
    · rw [e]; omega
    · rw [e]; omega
  refine ⟨hidx, rfl, ?_⟩
  intro r hr
  have hr2 : r ∈ (t.findClosestIndex q).2.reads ++
      [Read.inputValues (t.findClosestIndex q).1,
       Read.inputValues ((t.findClosestIndex q).1 + 1),
       Read.outputValues (t.findClosestIndex q).1,
       Read.outputValues ((t.findClosestIndex q).1 + 1)] := hr
  rw [List.mem_append] at hr2
  rcases hr2 with c | c
  · have := findClosestIndex_reads t q r c
    omega
  · simp only [List.mem_cons, List.mem_singleton, List.not_mem_nil, or_false] at c
    rcases c with c | c | c | c <;> subst c <;> simp only [Read.pos] <;> omega

/-- Witness of C9: the out-of-range query `25` on the example table. -/
theorem index_and_reads_in_bounds_witness :
    2 ≤ exampleTable.size_ ∧
    (exampleTable.findClosestIndex 25).1 ≤ exampleTable.size_ - 2 ∧
    ∀ r ∈ (exampleTable.interpolate 25).2.reads, r.pos < exampleTable.size_ :=
  ⟨by decide, (index_and_reads_in_bounds exampleTable 25 (by decide)).1,
    (index_and_reads_in_bounds exampleTable 25 (by decide)).2.2⟩

/-- C10: on a strictly increasing table with `count >= 2` the divisor `x1 - x0` used by
`interpolate` is strictly positive for every query, the fallback to index `0` included,
so `interpolate` returns a value; on any table the division is by zero only when the
two domain samples of the selected interval are equal. -/
theorem divisor_positive (t : LookupTable1D w) (q : ℚ) :
    (t.StrictlyIncreasing → 2 ≤ t.size_ →
      0 < t.inputValues_ ((t.findClosestIndex q).1 + 1) -
          t.inputValues_ (t.findClosestIndex q).1 ∧
      ∃ v, (t.interpolate q).1 = some v) ∧
    ((t.interpolate q).1 = none ↔
      t.inputValues_ (t.findClosestIndex q).1 =
        t.inputValues_ ((t.findClosestIndex q).1 + 1)) := by
  constructor
  · intro hs hn
    have hb := loopBound_eq t (by omega)
    have hidx : (t.findClosestIndex q).1 + 1 < t.size_ := by
      rcases findClosestIndex_cases t q with ⟨k, e, _, hk, _, _⟩ | ⟨e, _, _⟩
      · rw [e]; omega
      · rw [e]; omega
    have hlt := hs _ hidx
    refine ⟨sub_pos.mpr hlt, ?_⟩
    rw [interpolate_val, segmentValue_of_ne _ _ _ _ _ (ne_of_lt hlt)]
    exact ⟨_, rfl⟩
  · rw [interpolate_val, segmentValue]
    constructor
    · intro h
      by_contra c
      rw [if_neg c] at h
      cases h
    · intro h
      rw [if_pos h]

/-- Witness of C10: the out-of-range query `25` on the example table divides by `10`. -/
theorem divisor_positive_witness :
    (exampleTable.StrictlyIncreasing ∧ 2 ≤ exampleTable.size_) ∧
    (0 < exampleTable.inputValues_ ((exampleTable.findClosestIndex 25).1 + 1) -
          exampleTable.inputValues_ (exampleTable.findClosestIndex 25).1 ∧
      ∃ v, (exampleTable.interpolate 25).1 = some v) :=
  ⟨⟨exampleTable_strictlyIncreasing, by decide⟩,
    (divisor_positive exampleTable 25).1 exampleTable_strictlyIncreasing (by decide)⟩

end LookupTable1D

/-! ### Tables with fewer than two samples -/

namespace LookupTable1D

variable {w : Nat}

/-- The reads of `findClosestIndex` are those of its loop. -/
theorem findClosestIndex_reads_eq (t : LookupTable1D w) (q : ℚ) :
    (t.findClosestIndex q).2.reads = (findLoop t q 0).2 := by
  cases c : (findLoop t q 0).1 <;> simp only [findClosestIndex, c]

/-- When the loop body runs at all, its first read is `inputValues_[0]`. -/
theorem findLoop_reads_first (t : LookupTable1D w) (q : ℚ) (h : 0 < t.loopBound) :
    Read.inputValues 0 ∈ (findLoop t q 0).2 := by
  rw [findLoop]
  simp only [h, if_true]
  split_ifs <;> simp

theorem loopBound_of_size_zero (t : LookupTable1D w) (h : t.size_ = 0) :
    t.loopBound = 2 ^ w - 1 := by
  have hp : 0 < 2 ^ w := Nat.two_pow_pos w
  unfold loopBound
  rw [h, Nat.zero_add, Nat.mod_eq_of_lt (by omega)]

/-- C11 (as stated, refuted): with `count = 1` the call `interpolate(3)` reads position `1`
of `inputValues`, and with `count = 0` the call `findClosestIndex(0)` reads position `0`;
neither position is below `count`. -/
theorem reads_below_count_fails :
    (singlePointTable.size_ < 2 ∧
      ¬ ∀ r ∈ (singlePointTable.interpolate 3).2.reads, r.pos < singlePointTable.size_) ∧
    (emptyTable.size_ < 2 ∧
      ¬ ∀ r ∈ (emptyTable.findClosestIndex 0).2.reads, r.pos < emptyTable.size_) := by
  refine ⟨⟨by decide, fun h => ?_⟩, ⟨by decide, fun h => ?_⟩⟩
  · have h1 := h (Read.inputValues 1) (by
      simp [interpolate, findClosestIndex, findLoop, loopBound, singlePointTable, ofLists])
    exact absurd h1 (by decide)
  · have h1 := h (Read.inputValues 0) (by
      rw [findClosestIndex_reads_eq]
      exact findLoop_reads_first _ _ (by rw [loopBound_of_size_zero _ rfl]; norm_num))
    exact absurd h1 (by decide)

/-- C11 (amended): with `count < 2` every call of `interpolate` reads `inputValues` and
`outputValues` at position `index + 1`, which is not below `count`; `findClosestIndex`
makes no read and returns `0` when `count = 1`, and when `count = 0` (with `w >= 1`, the
bound `size_ - 1` wrapping to `2 ^ w - 1`) it reads `inputValues[0]`. -/
theorem reads_reach_count_of_small (t : LookupTable1D w) (q : ℚ) (h : t.size_ < 2) :
    (Read.inputValues ((t.findClosestIndex q).1 + 1) ∈ (t.interpolate q).2.reads ∧
      Read.outputValues ((t.findClosestIndex q).1 + 1) ∈ (t.interpolate q).2.reads ∧
      t.size_ ≤ (t.findClosestIndex q).1 + 1) ∧
    (t.size_ = 1 → (t.findClosestIndex q).2.reads = [] ∧ (t.findClosestIndex q).1 = 0) ∧
    (t.size_ = 0 → 1 ≤ w → Read.inputValues 0 ∈ (t.findClosestIndex q).2.reads) := by
  refine ⟨⟨?_, ?_, by omega⟩, fun h1 => ?_, fun h0 hw => ?_⟩
  · simp [interpolate]
  · simp [interpolate]
  · have hb : t.loopBound = 0 := by rw [loopBound_eq t (by omega), h1]
    have hl : findLoop t q 0 = (none, []) := by
      rw [findLoop]; simp [hb]
    simp [findClosestIndex, hl]
  · rw [findClosestIndex_reads_eq]
    refine findLoop_reads_first t q ?_
    rw [loopBound_of_size_zero t h0]
    have : 2 ^ 1 ≤ 2 ^ w := Nat.pow_le_pow_right (by decide) hw
    omega

/-- Witness of C11 (amended): the one-sample table read at position `1`. -/
theorem reads_reach_count_of_small_witness :
    singlePointTable.size_ < 2 ∧
    Read.inputValues ((singlePointTable.findClosestIndex 3).1 + 1) ∈
      (singlePointTable.interpolate 3).2.reads ∧
    singlePointTable.size_ ≤ (singlePointTable.findClosestIndex 3).1 + 1 :=
  ⟨by decide, (reads_reach_count_of_small singlePointTable 3 (by decide)).1.1,
    (reads_reach_count_of_small singlePointTable 3 (by decide)).1.2.2⟩

end LookupTable1D

/-! ### DS3231: date and time -/

namespace DS3231

theorem bcd2dec_dec2bcd (x : Nat) (h : x < 100) : bcd2dec (dec2bcd x) = x := by
  have hall : ∀ y < 100, bcd2dec (dec2bcd y) = y := by decide
  exact hall x h

theorem dec2bcd_mod (x : Nat) : dec2bcd x % 256 = dec2bcd x := by
  unfold dec2bcd
  omega

theorem dow_range (y m d : Nat) : 1 ≤ dow y m d ∧ dow y m d ≤ 7 := by
  unfold dow
  simp only
  split_ifs <;> omega

/-- The registers of the device after `setDateTime`. -/
theorem setDateTime_regs (b : Bus) (hb : b.address = DS3231_ADDRESS)
    (year month day hour minute second : Nat) :
    (setDateTime year month day hour minute second b).regs =
      Bus.storeFrom b.regs 0 [dec2bcd second, dec2bcd minute, dec2bcd hour,
        dec2bcd (dow year month day), dec2bcd day, dec2bcd month,
        dec2bcd ((year + 65536 - 2000) % 256), 0] ∧
    (setDateTime year month day hour minute second b).address = DS3231_ADDRESS := by
  simp [setDateTime, Bus.beginTransmission, Bus.write, Bus.endTransmission, hb,
    DS3231_REG_TIME, dec2bcd_mod]

/-- The values decoded by `getDateTime` from the seven time registers. -/
theorem getDateTime_eq (b : Bus) (hb : b.address = DS3231_ADDRESS) :
    ∃ b2, getDateTime b = some
      ({ year := (bcd2dec (b.regs 6 % 256) + 2000) % 65536
         month := bcd2dec (b.regs 5 % 256)
         day := bcd2dec (b.regs 4 % 256)
         dayOfWeek := bcd2dec (b.regs 3 % 256)
         hour := bcd2dec (b.regs 2 % 256)
         minute := bcd2dec (b.regs 1 % 256)
         second := bcd2dec (b.regs 0 % 256)
         unixtime := unixtime
          { year := (bcd2dec (b.regs 6 % 256) + 2000) % 65536
            month := bcd2dec (b.regs 5 % 256)
            day := bcd2dec (b.regs 4 % 256)
            dayOfWeek := bcd2dec (b.regs 3 % 256)
            hour := bcd2dec (b.regs 2 % 256)
            minute := bcd2dec (b.regs 1 % 256)
            second := bcd2dec (b.regs 0 % 256)
            unixtime := 0 } }, b2) := by
  simp [getDateTime, Bus.beginTransmission, Bus.write, Bus.endTransmission, Bus.requestFrom,
    Bus.waitAvailable, Bus.available, Bus.read, Bus.readDescending, Bus.storeFrom,
    Bus.fetchFrom, hb, DS3231_REG_TIME]

/-- C12: on a register-file device, for every year in 2000..2099, month 1..12, day 1..31,
hour 0..23, minute 0..59 and second 0..59, `setDateTime` leaves the seven BCD bytes in the
time registers in the order second, minute, hour, day of week, day, month, year-2000, and
`getDateTime` called afterwards returns exactly those six fields with
`dayOfWeek = dow(year, month, day)`. -/
theorem getDateTime_after_setDateTime (b : Bus) (hb : b.address = DS3231_ADDRESS)
    (year month day hour minute second : Nat)
    (hy1 : 2000 ≤ year) (hy2 : year ≤ 2099) (hm1 : 1 ≤ month) (hm2 : month ≤ 12)
    (hd1 : 1 ≤ day) (hd2 : day ≤ 31) (hh : hour ≤ 23) (hmi : minute ≤ 59)
    (hs : second ≤ 59) :
    Bus.fetchFrom (setDateTime year month day hour minute second b).regs DS3231_REG_TIME 7 =
      [dec2bcd second, dec2bcd minute, dec2bcd hour, dec2bcd (dow year month day),
        dec2bcd day, dec2bcd month, dec2bcd (year - 2000)] ∧
    ∃ t b2, getDateTime (setDateTime year month day hour minute second b) = some (t, b2) ∧
      t.year = year ∧ t.month = month ∧ t.day = day ∧ t.hour = hour ∧
      t.minute = minute ∧ t.second = second ∧ t.dayOfWeek = dow year month day := by
  obtain ⟨hr, ha⟩ := setDateTime_regs b hb year month day hour minute second
  obtain ⟨b2, hg⟩ := getDateTime_eq _ ha
  have hyear : (year + 65536 - 2000) % 256 = year - 2000 := by omega
  have hdow := dow_range year month day
  rw [hyear] at hr
  refine ⟨?_, _, b2, hg, ?_, ?_, ?_, ?_, ?_, ?_, ?_⟩
  · simp [hr, Bus.fetchFrom, Bus.storeFrom, DS3231_REG_TIME, dec2bcd_mod]
  · simp [hr, Bus.storeFrom, dec2bcd_mod, bcd2dec_dec2bcd (year - 2000) (by omega)]
    omega
  · simp [hr, Bus.storeFrom, dec2bcd_mod, bcd2dec_dec2bcd month (by omega)]
  · simp [hr, Bus.storeFrom, dec2bcd_mod, bcd2dec_dec2bcd day (by omega)]
  · simp [hr, Bus.storeFrom, dec2bcd_mod, bcd2dec_dec2bcd hour (by omega)]
  · simp [hr, Bus.storeFrom, dec2bcd_mod, bcd2dec_dec2bcd minute (by omega)]
  · simp [hr, Bus.storeFrom, dec2bcd_mod, bcd2dec_dec2bcd second (by omega)]
  · simp [hr, Bus.storeFrom, dec2bcd_mod, bcd2dec_dec2bcd (dow year month day) (by omega)]

/-- Witness of C12: 16 June 2022, 19:07:10 on a clock with zeroed registers. -/
theorem getDateTime_after_setDateTime_witness :
    (freshDevice.address = DS3231_ADDRESS ∧ 2000 ≤ 2022 ∧ 2022 ≤ 2099 ∧ 1 ≤ 6 ∧ 6 ≤ 12 ∧
      1 ≤ 16 ∧ 16 ≤ 31 ∧ 19 ≤ 23 ∧ 7 ≤ 59 ∧ 10 ≤ 59) ∧
    ∃ t b2, getDateTime (setDateTime 2022 6 16 19 7 10 freshDevice) = some (t, b2) ∧
      t.year = 2022 ∧ t.month = 6 ∧ t.day = 16 ∧ t.hour = 19 ∧
      t.minute = 7 ∧ t.second = 10 ∧ t.dayOfWeek = dow 2022 6 16 :=
  ⟨⟨rfl, by decide, by decide, by decide, by decide, by decide, by decide, by decide,
      by decide, by decide⟩,
    (getDateTime_after_setDateTime freshDevice rfl 2022 6 16 19 7 10 (by decide) (by decide)
      (by decide) (by decide) (by decide) (by decide) (by decide) (by decide)
      (by decide)).2⟩

theorem conv2d_digits (a c : Nat) (rest : List Nat) (ha1 : 48 ≤ a) (ha2 : a ≤ 57)
    (hc1 : 48 ≤ c) (hc2 : c ≤ 57) : conv2d (a :: c :: rest) = 10 * (a - 48) + (c - 48) := by
  simp only [conv2d, List.getD_cons_zero, List.getD_cons_succ]
  rw [if_pos ⟨ha1, ha2⟩]
  omega

theorem conv2d_padded (a c : Nat) (rest : List Nat) (ha : a = 32 ∨ (48 ≤ a ∧ a ≤ 57))
    (hc1 : 48 ≤ c) (hc2 : c ≤ 57) :
    conv2d (a :: c :: rest) = 10 * padValue a + (c - 48) := by
  rcases ha with e | ⟨ha1, ha2⟩
  · subst e
    simp only [conv2d, List.getD_cons_zero, List.getD_cons_succ, padValue]
    norm_num
    omega
  · rw [conv2d_digits a c rest ha1 ha2 hc1 hc2, padValue, if_neg (by omega)]

/-- What the parser sees of a date in the documented format. -/
theorem documented_date_shape (m : Nat) (hm : m < 12) (d1 d2 y1 y2 : Nat) :
    monthSwitch (cstr (monthNames.getD m "") ++ [32, d1, d2, 32, 50, 48, y1, y2]) =
      some (m + 1) ∧
    (cstr (monthNames.getD m "") ++ [32, d1, d2, 32, 50, 48, y1, y2]).drop 4 =
      [d1, d2, 32, 50, 48, y1, y2] ∧
    (cstr (monthNames.getD m "") ++ [32, d1, d2, 32, 50, 48, y1, y2]).drop 9 = [y1, y2] := by
  interval_cases m <;> exact ⟨rfl, rfl, rfl⟩

/-- Reading back, with `getDateTime`, what `setDateTime` wrote: the seven registers and
the decoded fields, for fields below `100`. -/
theorem setDateTime_then_getDateTime (b : Bus) (hb : b.address = DS3231_ADDRESS)
    (year month day hour minute second : Nat)
    (hy1 : 2000 ≤ year) (hy2 : year ≤ 2099) (hm : month < 100) (hd : day < 100)
    (hh : hour < 100) (hmi : minute < 100) (hs : second < 100) :
    Bus.fetchFrom (setDateTime year month day hour minute second b).regs DS3231_REG_TIME 7 =
      [dec2bcd second, dec2bcd minute, dec2bcd hour, dec2bcd (dow year month day),
        dec2bcd day, dec2bcd month, dec2bcd (year - 2000)] ∧
    ∃ t b2, getDateTime (setDateTime year month day hour minute second b) = some (t, b2) ∧
      t.year = year ∧ t.month = month ∧ t.day = day ∧ t.hour = hour ∧
      t.minute = minute ∧ t.second = second ∧ t.dayOfWeek = dow year month day := by
  obtain ⟨hr, ha⟩ := setDateTime_regs b hb year month day hour minute second
  obtain ⟨b2, hg⟩ := getDateTime_eq _ ha
  have hyear : (year + 65536 - 2000) % 256 = year - 2000 := by omega
  have hdow := dow_range year month day
  rw [hyear] at hr
  refine ⟨?_, _, b2, hg, ?_, ?_, ?_, ?_, ?_, ?_, ?_⟩
  · simp [hr, Bus.fetchFrom, Bus.storeFrom, DS3231_REG_TIME, dec2bcd_mod]
  · simp [hr, Bus.storeFrom, dec2bcd_mod, bcd2dec_dec2bcd (year - 2000) (by omega)]
    omega
  · simp [hr, Bus.storeFrom, dec2bcd_mod, bcd2dec_dec2bcd month hm]
  · simp [hr, Bus.storeFrom, dec2bcd_mod, bcd2dec_dec2bcd day hd]
  · simp [hr, Bus.storeFrom, dec2bcd_mod, bcd2dec_dec2bcd hour hh]
  · simp [hr, Bus.storeFrom, dec2bcd_mod, bcd2dec_dec2bcd minute hmi]
  · simp [hr, Bus.storeFrom, dec2bcd_mod, bcd2dec_dec2bcd second hs]
  · simp [hr, Bus.storeFrom, dec2bcd_mod, bcd2dec_dec2bcd (dow year month day) (by omega)]

/-- What `parseDateTime` returns on strings of the documented format. -/
theorem parseDateTime_documented (m : Nat) (hm : m < 12)
    (d1 d2 y1 y2 h1 h2 n1 n2 s1 s2 : Nat)
    (hd1 : d1 = 32 ∨ IsDigit d1) (hd2 : IsDigit d2) (hy1 : IsDigit y1) (hy2 : IsDigit y2)
    (hh1 : IsDigit h1) (hh2 : IsDigit h2) (hn1 : IsDigit n1) (hn2 : IsDigit n2)
    (hs1 : IsDigit s1) (hs2 : IsDigit s2) :
    parseDateTime (cstr (monthNames.getD m "") ++ [32, d1, d2, 32, 50, 48, y1, y2])
        [h1, h2, 58, n1, n2, 58, s1, s2] =
      some (2000 + (10 * (y1 - 48) + (y2 - 48)), m + 1, 10 * padValue d1 + (d2 - 48),
        10 * (h1 - 48) + (h2 - 48), 10 * (n1 - 48) + (n2 - 48),
        10 * (s1 - 48) + (s2 - 48)) := by
  obtain ⟨hmon, hday, hyear⟩ := documented_date_shape m hm d1 d2 y1 y2
  have ht3 : ([h1, h2, 58, n1, n2, 58, s1, s2] : List Nat).drop 3 = [n1, n2, 58, s1, s2] := rfl
  have ht6 : ([h1, h2, 58, n1, n2, 58, s1, s2] : List Nat).drop 6 = [s1, s2] := rfl
  have hyy : (10 * (y1 - 48) + (y2 - 48) + 2000) % 65536 =
      2000 + (10 * (y1 - 48) + (y2 - 48)) := by
    have := hy1.2
    have := hy2.2
    omega
  simp only [parseDateTime, hmon, hday, hyear, ht3, ht6,
    conv2d_digits y1 y2 [] hy1.1 hy1.2 hy2.1 hy2.2,
    conv2d_padded d1 d2 _ hd1 hd2.1 hd2.2,
    conv2d_digits h1 h2 _ hh1.1 hh1.2 hh2.1 hh2.2,
    conv2d_digits n1 n2 _ hn1.1 hn1.2 hn2.1 hn2.2,
    conv2d_digits s1 s2 [] hs1.1 hs1.2 hs2.1 hs2.2, hyy]

theorem padValue_le (c : Nat) (h : c = 32 ∨ IsDigit c) : padValue c ≤ 9 := by
  unfold padValue
  rcases h with e | ⟨_, h2⟩
  · simp [e]
  · split_ifs <;> omega

/-- C13: for every date string `Mmm dd yyyy` (`Mmm` the abbreviation of month `m + 1`, `dd`
two digits or a space and a digit, `yyyy = 20YY`) and every time string `hh:mm:ss`,
`setDateTime(date, time)` on a register-file clock sets year `2000 + YY`, month `m + 1`,
day `dd`, hour `hh`, minute `mm` and second `ss`: these are the values parsed, their BCD
bytes are in the time registers afterwards, and `getDateTime` returns them. -/
theorem setDateTime_of_documented_strings (b : Bus) (hb : b.address = DS3231_ADDRESS)
    (m : Nat) (hm : m < 12)
    (d1 d2 y1 y2 h1 h2 n1 n2 s1 s2 : Nat)
    (hd1 : d1 = 32 ∨ IsDigit d1) (hd2 : IsDigit d2) (hy1 : IsDigit y1) (hy2 : IsDigit y2)
    (hh1 : IsDigit h1) (hh2 : IsDigit h2) (hn1 : IsDigit n1) (hn2 : IsDigit n2)
    (hs1 : IsDigit s1) (hs2 : IsDigit s2) :
    parseDateTime (cstr (monthNames.getD m "") ++ [32, d1, d2, 32, 50, 48, y1, y2])
        [h1, h2, 58, n1, n2, 58, s1, s2] =
      some (2000 + (10 * (y1 - 48) + (y2 - 48)), m + 1, 10 * padValue d1 + (d2 - 48),
        10 * (h1 - 48) + (h2 - 48), 10 * (n1 - 48) + (n2 - 48),
        10 * (s1 - 48) + (s2 - 48)) ∧
    ∃ b1, setDateTimeOfStrings (cstr (monthNames.getD m "") ++ [32, d1, d2, 32, 50, 48, y1, y2])
        [h1, h2, 58, n1, n2, 58, s1, s2] b = some b1 ∧
      Bus.fetchFrom b1.regs DS3231_REG_TIME 7 =
        [dec2bcd (10 * (s1 - 48) + (s2 - 48)), dec2bcd (10 * (n1 - 48) + (n2 - 48)),
          dec2bcd (10 * (h1 - 48) + (h2 - 48)),
          dec2bcd (dow (2000 + (10 * (y1 - 48) + (y2 - 48))) (m + 1)
            (10 * padValue d1 + (d2 - 48))),
          dec2bcd (10 * padValue d1 + (d2 - 48)), dec2bcd (m + 1),
          dec2bcd (10 * (y1 - 48) + (y2 - 48))] ∧
      ∃ t b2, getDateTime b1 = some (t, b2) ∧
        t.year = 2000 + (10 * (y1 - 48) + (y2 - 48)) ∧ t.month = m + 1 ∧
        t.day = 10 * padValue d1 + (d2 - 48) ∧ t.hour = 10 * (h1 - 48) + (h2 - 48) ∧
        t.minute = 10 * (n1 - 48) + (n2 - 48) ∧ t.second = 10 * (s1 - 48) + (s2 - 48) := by
  have hparse := parseDateTime_documented m hm d1 d2 y1 y2 h1 h2 n1 n2 s1 s2
    hd1 hd2 hy1 hy2 hh1 hh2 hn1 hn2 hs1 hs2
  have hpad := padValue_le d1 hd1
  have b1 := hd2.2
  have b2 := hy1.2
  have b3 := hy2.2
  have b4 := hh1.2
  have b5 := hh2.2
  have b6 := hn1.2
  have b7 := hn2.2
  have b8 := hs1.2
  have b9 := hs2.2
  obtain ⟨hregs, t, bb, hget, f1, f2, f3, f4, f5, f6, _⟩ :=
    setDateTime_then_getDateTime b hb (2000 + (10 * (y1 - 48) + (y2 - 48))) (m + 1)
      (10 * padValue d1 + (d2 - 48)) (10 * (h1 - 48) + (h2 - 48))
      (10 * (n1 - 48) + (n2 - 48)) (10 * (s1 - 48) + (s2 - 48))
      (by omega) (by omega) (by omega) (by omega) (by omega) (by omega) (by omega)
  have hsub : 2000 + (10 * (y1 - 48) + (y2 - 48)) - 2000 = 10 * (y1 - 48) + (y2 - 48) := by
    omega
  rw [hsub] at hregs
  refine ⟨hparse, _, ?_, hregs, t, bb, hget, f1, f2, f3, f4, f5, f6⟩
  simp only [setDateTimeOfStrings, hparse]

/-- Witness of C13: the strings `Jun 16 2022` and `19:07:10` give (2022, 6, 16, 19, 7, 10),
written as the bytes `0x10 0x07 0x19 0x04 0x16 0x06 0x22` and read back by `getDateTime`. -/
theorem setDateTime_of_documented_strings_witness :
    (freshDevice.address = DS3231_ADDRESS ∧ (5 < 12) ∧ ((49 : Nat) = 32 ∨ IsDigit 49) ∧
      IsDigit 54 ∧ IsDigit 50 ∧ IsDigit 50 ∧ IsDigit 49 ∧ IsDigit 57 ∧ IsDigit 48 ∧
      IsDigit 55 ∧ IsDigit 49 ∧ IsDigit 48) ∧
    parseDateTime (cstr "Jun 16 2022") (cstr "19:07:10") = some (2022, 6, 16, 19, 7, 10) ∧
    ∃ b1, setDateTimeOfStrings (cstr "Jun 16 2022") (cstr "19:07:10") freshDevice = some b1 ∧
      Bus.fetchFrom b1.regs DS3231_REG_TIME 7 = [0x10, 0x07, 0x19, 0x04, 0x16, 0x06, 0x22] ∧
      ∃ t b2, getDateTime b1 = some (t, b2) ∧ t.year = 2022 ∧ t.month = 6 ∧ t.day = 16 ∧
        t.hour = 19 ∧ t.minute = 7 ∧ t.second = 10 :=
  ⟨⟨rfl, by decide, by decide, by decide, by decide, by decide, by decide, by decide,
      by decide, by decide, by decide, by decide⟩,
    setDateTime_of_documented_strings freshDevice rfl 5 (by decide) 49 54 50 50 49 57 48 55
      49 48 (by decide) (by decide) (by decide) (by decide) (by decide) (by decide)
      (by decide) (by decide) (by decide) (by decide)⟩

end DS3231

/-! ### DS3231: alarm 1 and the control register -/

namespace DS3231

/-- C14 (defect in `getAlarmType1`): after `setAlarm1(1, 0, 0, 50, DS3231_EVERY_SECOND, false)`
the alarm registers hold `0xD0, 0x80, 0x80, 0x81`, and `getAlarmType1` returns `14`, the
value of `DS3231_MATCH_S`, not `15`, the value of `DS3231_EVERY_SECOND`; after
`setAlarm1(20, 0, 0, 0, DS3231_MATCH_H_M_S, false)` it returns `24`, which is no
enumerator at all. -/
theorem getAlarmType1_after_setAlarm1_differs :
    (setAlarm1 1 0 0 50 .DS3231_EVERY_SECOND false freshDevice).map
        (fun b => Bus.fetchFrom b.regs DS3231_REG_ALARM_1 4) = some [0xD0, 0x80, 0x80, 0x81] ∧
    ((setAlarm1 1 0 0 50 .DS3231_EVERY_SECOND false freshDevice).bind getAlarmType1).map
        Prod.fst = some DS3231_alarm1_t.DS3231_MATCH_S.toNat ∧
    DS3231_alarm1_t.DS3231_MATCH_S.toNat ≠ DS3231_alarm1_t.DS3231_EVERY_SECOND.toNat ∧
    ((setAlarm1 20 0 0 0 .DS3231_MATCH_H_M_S false freshDevice).bind getAlarmType1).map
        Prod.fst = some 24 ∧
    DS3231_alarm1_t.DS3231_MATCH_H_M_S.toNat = 8 := by
  decide

/-- C15 (defect in `getAlarm1`): after `setAlarm1(3, 4, 5, 6, DS3231_MATCH_DY_H_M_S, false)`
the day register holds `0x43` and `getAlarm1` returns day `43`, not `3`, with hour `4`,
minute `5`, second `6`; the same time set with `DS3231_MATCH_DT_H_M_S` reads back with
day `3`. -/
theorem getAlarm1_after_setAlarm1_day_of_week :
    (setAlarm1 3 4 5 6 .DS3231_MATCH_DY_H_M_S false freshDevice).map
        (fun b => Bus.fetchFrom b.regs DS3231_REG_ALARM_1 4) = some [0x06, 0x05, 0x04, 0x43] ∧
    ((setAlarm1 3 4 5 6 .DS3231_MATCH_DY_H_M_S false freshDevice).bind getAlarm1).map
        Prod.fst = some ⟨43, 4, 5, 6⟩ ∧
    ((setAlarm1 3 4 5 6 .DS3231_MATCH_DT_H_M_S false freshDevice).bind getAlarm1).map
        Prod.fst = some ⟨3, 4, 5, 6⟩ := by
  decide

/-- C16 (defect in `setBattery`): with the control register at `0b00000100` (INTCN set),
`setBattery(true, false)` writes `0b00000000`: bit 2 is cleared, and `getInterruptSetting`
changes from `false` to `true`; `setBattery(false, false)` writes `0b10000100` and
leaves bit 2 alone. -/
theorem setBattery_clears_intcn :
    intcnDevice.regs DS3231_REG_CONTROL = 0b00000100 ∧
    (setBattery true false intcnDevice).map (fun b => b.regs DS3231_REG_CONTROL) =
      some 0b00000000 ∧
    (setBattery false false intcnDevice).map (fun b => b.regs DS3231_REG_CONTROL) =
      some 0b10000100 ∧
    (getInterruptSetting intcnDevice).map Prod.fst = some false ∧
    ((setBattery true false intcnDevice).bind getInterruptSetting).map Prod.fst =
      some true := by
  decide

end DS3231

/-! ### MPU6050: initialisation and bypass -/

namespace MPU6050

/-- C17 (defect in `initialize`): on a sensor with zeroed registers the `CONFIG` register
(0x1A) still holds `0` after `initialize`, so `DLPF_CFG` (bits 2..0) is `0`, not `6`; the
write meant for it goes to `ACCEL_CONFIG` (0x1C) a second time. -/
theorem initialize_leaves_config :
    (initializeDevice ⟨0x68⟩ freshDevice).regs MPU6050_RA_CONFIG = 0 ∧
    (initializeDevice ⟨0x68⟩ freshDevice).regs MPU6050_RA_CONFIG % 8 ≠ 6 ∧
    (initializeDevice ⟨0x68⟩ freshDevice).regs MPU6050_RA_PWR_MGMT_1 = 0x83 := by
  decide

/-- C18 (defect in `setBypass`): `setBypass(0)` on a sensor with zeroed registers leaves
`INT_PIN_CFG` (0x37) at `3`, with `I2C_BYPASS_EN` (bit 1) set, exactly as `setBypass(1)`
does: the argument is not used. -/
theorem setBypass_ignores_argument :
    (setBypass ⟨0x68⟩ 0 freshDevice).regs MPU6050_RA_INT_PIN_CFG = 3 ∧
    ((setBypass ⟨0x68⟩ 0 freshDevice).regs MPU6050_RA_INT_PIN_CFG >>> 1) % 2 = 1 ∧
    (setBypass ⟨0x68⟩ 1 freshDevice).regs MPU6050_RA_INT_PIN_CFG = 3 ∧
    ∀ (self : MPU6050) (enable : Nat) (b : Bus), setBypass self enable b = setBypass self 0 b := by
  refine ⟨by decide, by decide, by decide, fun _ _ _ => rfl⟩

end MPU6050

/-! ### The bracket search on `double` operands -/

namespace Double

theorem le_iff_rank (a b : Double) (ha : a.isNaN = false) (hb : b.isNaN = false) :
    le a b = true ↔ a.rank ≤ b.rank := by
  simp [le, ha, hb]

theorem lt_iff_rank (a b : Double) (ha : a.isNaN = false) (hb : b.isNaN = false) :
    lt a b = true ↔ a.rank < b.rank := by
  simp [lt, ha, hb]

theorem not_isNaN_of_le (a b : Double) (h : le a b = true) :
    a.isNaN = false ∧ b.isNaN = false := by
  simp only [le, Bool.and_eq_true, Bool.not_eq_true'] at h
  exact ⟨h.1.1, h.1.2⟩

theorem lt_false_of_isNaN_left (a b : Double) (h : a.isNaN = true) : lt a b = false := by
  simp [lt, h]

theorem lt_false_of_isNaN_right (a b : Double) (h : b.isNaN = true) : lt a b = false := by
  simp [lt, h]

end Double

/-- In a linear order, a point between the first term and term `k` of a sequence lies
between two consecutive terms below `k`. -/
theorem exists_consecutive_between {α : Type} [LinearOrder α] (e : Nat → α) (q : α)
    (h0 : e 0 ≤ q) (k : Nat) (hk : 1 ≤ k) (hq : q ≤ e k) :
    ∃ i, i + 1 ≤ k ∧ e i ≤ q ∧ q ≤ e (i + 1) := by
  induction k with
  | zero => omega
  | succ n ih =>
    by_cases c : e n ≤ q
    · exact ⟨n, le_refl _, c, hq⟩
    · have hn : 1 ≤ n := by
        rcases Nat.eq_zero_or_pos n with z | z
        · subst z; exact absurd h0 c
        · exact z
      obtain ⟨i, hi, hbr⟩ := ih hn (le_of_lt (not_le.mp c))
      exact ⟨i, by omega, hbr⟩

/-- A sequence whose consecutive terms are ordered is monotone on its first `n` terms. -/
theorem monotone_of_consecutive {α : Type} [LinearOrder α] (e : Nat → α) (n : Nat)
    (h : ∀ i, i + 1 < n → e i ≤ e (i + 1)) (i j : Nat) (hij : i ≤ j) (hj : j < n) :
    e i ≤ e j := by
  induction j with
  | zero =>
    have z : i = 0 := by omega
    subst z; exact le_refl _
  | succ m ih =>
    rcases Nat.eq_or_lt_of_le hij with c | c
    · subst c; exact le_refl _
    · exact le_trans (ih (by omega) (by omega)) (h m hj)

namespace LookupTable1DF

variable {w : Nat}

theorem loopBoundF_eq (t : LookupTable1DF w) (h : 1 ≤ t.size_) :
    t.loopBound = t.size_ - 1 := by
  have hlt := t.size_lt
  unfold loopBound
  have e : t.size_ + 2 ^ w - 1 = (t.size_ - 1) + 2 ^ w := by omega
  rw [e, Nat.add_mod_right, Nat.mod_eq_of_lt (by omega)]

theorem findLoopF_some (t : LookupTable1DF w) (q : Double) (i k : Nat)
    (h : (findLoopF t q i).1 = some k) :
    i ≤ k ∧ k < t.loopBound ∧ t.BracketsF q k ∧
      ∀ j, i ≤ j → j < k → ¬ t.BracketsF q j := by
  induction i using findLoopF.induct t q with
  | case1 i hb h1 h2 =>
    rw [findLoopF] at h
    simp only [hb, h1, h2, if_true] at h
    cases h
    exact ⟨le_refl _, hb, ⟨h1, h2⟩, fun j hj hjk => absurd hjk (by omega)⟩
  | case2 i hb h1 h2 ih =>
    rw [findLoopF] at h
    simp only [hb, h1, h2, if_true, if_false] at h
    obtain ⟨a, b, c, d⟩ := ih h
    refine ⟨by omega, b, c, fun j hj hjk => ?_⟩
    rcases Nat.eq_or_lt_of_le hj with e | e
    · subst e; exact fun hbr => h2 hbr.2
    · exact d j e hjk
  | case3 i hb h1 ih =>
    rw [findLoopF] at h
    simp only [hb, h1, if_true, if_false] at h
    obtain ⟨a, b, c, d⟩ := ih h
    refine ⟨by omega, b, c, fun j hj hjk => ?_⟩
    rcases Nat.eq_or_lt_of_le hj with e | e
    · subst e; exact fun hbr => h1 hbr.1
    · exact d j e hjk
  | case4 i hb =>
    rw [findLoopF] at h
    simp only [hb, if_false] at h
    cases h

theorem findLoopF_none (t : LookupTable1DF w) (q : Double) (i : Nat)
    (h : (findLoopF t q i).1 = none) :
    ∀ j, i ≤ j → j < t.loopBound → ¬ t.BracketsF q j := by
  induction i using findLoopF.induct t q with
  | case1 i hb h1 h2 =>
    rw [findLoopF] at h
    simp only [hb, h1, h2, if_true] at h
    cases h
  | case2 i hb h1 h2 ih =>
    rw [findLoopF] at h
    simp only [hb, h1, h2, if_true, if_false] at h
    intro j hj hjb
    rcases Nat.eq_or_lt_of_le hj with e | e
    · subst e; exact fun hbr => h2 hbr.2
    · exact ih h j e hjb
  | case3 i hb h1 ih =>
    rw [findLoopF] at h
    simp only [hb, h1, if_true, if_false] at h
    intro j hj hjb
    rcases Nat.eq_or_lt_of_le hj with e | e
    · subst e; exact fun hbr => h1 hbr.1
    · exact ih h j e hjb
  | case4 i hb =>
    intro j hj hjb
    omega

/-- The two ways `findClosestIndex` can end on `double` operands. -/
theorem findClosestIndexF_cases (t : LookupTable1DF w) (q : Double) :
    (∃ k, (t.findClosestIndexF q).1 = k ∧ (t.findClosestIndexF q).2.serial = [] ∧
        k < t.loopBound ∧ t.BracketsF q k ∧ ∀ j, j < k → ¬ t.BracketsF q j) ∨
    ((t.findClosestIndexF q).1 = 0 ∧
        (t.findClosestIndexF q).2.serial = ["Error: Failed to find closest index."] ∧
        ∀ j, j < t.loopBound → ¬ t.BracketsF q j) := by
  cases h : (findLoopF t q 0).1 with
  | none =>
    right
    refine ⟨?_, ?_, fun j hj => findLoopF_none t q 0 h j (Nat.zero_le _) hj⟩
    · simp only [findClosestIndexF, h]
    · simp only [findClosestIndexF, h]
  | some k =>
    left
    obtain ⟨_, hb, hbr, hmin⟩ := findLoopF_some t q 0 k h
    refine ⟨k, ?_, ?_, hb, hbr, fun j hj => hmin j (Nat.zero_le _) hj⟩
    · simp only [findClosestIndexF, h]
    · simp only [findClosestIndexF, h]

/-- The samples of a sorted table with at least two samples are not NaN. -/
theorem sortedF_not_isNaN (t : LookupTable1DF w) (hs : t.SortedF) (hn : 2 ≤ t.size_)
    (i : Nat) (hi : i < t.size_) : (t.inputValues_ i).isNaN = false := by
  rcases Nat.eq_zero_or_pos i with z | z
  · subst z
    exact (Double.not_isNaN_of_le _ _ (hs 0 (by omega))).1
  · have e : i - 1 + 1 = i := by omega
    have h := (Double.not_isNaN_of_le _ _ (hs (i - 1) (by omega))).2
    rwa [e] at h

/-- On `double` operands the fallback is taken exactly when no interval of the table
brackets the query. -/
theorem fallbackF_iff_no_bracket (t : LookupTable1DF w) (q : Double) (hn : 1 ≤ t.size_) :
    (t.findClosestIndexF q).2.serial = ["Error: Failed to find closest index."] ↔
      ∀ i, i + 1 < t.size_ → ¬ t.BracketsF q i := by
  have hb := loopBoundF_eq t hn
  rcases findClosestIndexF_cases t q with ⟨k, _, es, hk, hbr, _⟩ | ⟨_, es, hno⟩
  · constructor
    · intro h; rw [es] at h; cases h
    · intro h; exact absurd hbr (h k (by omega))
  · exact ⟨fun _ i hi => hno i (by omega), fun _ => es⟩

/-- With samples that are not NaN, a query inside the sampled range is answered from the
loop, at a bracketing interval. -/
theorem findClosestIndexF_in_range (t : LookupTable1DF w) (q : Double) (hn : 2 ≤ t.size_)
    (hx : ∀ i, i < t.size_ → (t.inputValues_ i).isNaN = false)
    (h0 : Double.le (t.inputValues_ 0) q = true)
    (h1 : Double.le q (t.inputValues_ (t.size_ - 1)) = true) :
    (t.findClosestIndexF q).1 + 1 < t.size_ ∧ t.BracketsF q (t.findClosestIndexF q).1 ∧
      (t.findClosestIndexF q).2.serial = [] := by
  have hb := loopBoundF_eq t (by omega)
  have hq := (Double.not_isNaN_of_le _ _ h0).2
  have r0 := (Double.le_iff_rank _ _ (hx 0 (by omega)) hq).mp h0
  have r1 := (Double.le_iff_rank _ _ hq (hx (t.size_ - 1) (by omega))).mp h1
  obtain ⟨i, hi, hlo, hhi⟩ := exists_consecutive_between
    (fun j => (t.inputValues_ j).rank) q.rank r0 (t.size_ - 1) (by omega) r1
  have hbr : t.BracketsF q i :=
    ⟨(Double.le_iff_rank _ _ (hx i (by omega)) hq).mpr hlo,
      (Double.le_iff_rank _ _ hq (hx (i + 1) (by omega))).mpr hhi⟩
  rcases findClosestIndexF_cases t q with ⟨k, e, es, hk, hbr2, _⟩ | ⟨_, _, hno⟩
  · rw [e]; exact ⟨by omega, hbr2, es⟩
  · exact absurd hbr (hno i (by omega))

/-- On a sorted table of `double` samples the intervals bracket exactly the queries that
are not NaN and lie in the sampled range. -/
theorem no_bracketF_iff_out_of_range (t : LookupTable1DF w) (q : Double) (hs : t.SortedF)
    (hn : 2 ≤ t.size_) (hq : q.isNaN = false) :
    (∀ i, i + 1 < t.size_ → ¬ t.BracketsF q i) ↔
      (Double.lt q (t.inputValues_ 0) = true ∨
        Double.lt (t.inputValues_ (t.size_ - 1)) q = true) := by
  have hx := sortedF_not_isNaN t hs hn
  have hmono := monotone_of_consecutive (fun j => (t.inputValues_ j).rank) t.size_
    (fun i hi => (Double.le_iff_rank _ _ (hx i (by omega)) (hx (i + 1) hi)).mp (hs i hi))
  constructor
  · intro h
    by_contra c
    rw [not_or, Double.lt_iff_rank _ _ hq (hx 0 (by omega)),
      Double.lt_iff_rank _ _ (hx (t.size_ - 1) (by omega)) hq, not_lt, not_lt] at c
    obtain ⟨i, hi, hlo, hhi⟩ := exists_consecutive_between
      (fun j => (t.inputValues_ j).rank) q.rank c.1 (t.size_ - 1) (by omega) c.2
    exact h i (by omega) ⟨(Double.le_iff_rank _ _ (hx i (by omega)) hq).mpr hlo,
      (Double.le_iff_rank _ _ hq (hx (i + 1) (by omega))).mpr hhi⟩
  · rintro (c | c) i hi hbr
    · rw [Double.lt_iff_rank _ _ hq (hx 0 (by omega))] at c
      have h1 := (Double.le_iff_rank _ _ (hx i (by omega)) hq).mp hbr.1
      have h2 := hmono 0 i (Nat.zero_le _) (by omega)
      exact absurd (lt_of_le_of_lt (le_trans h2 h1) c) (lt_irrefl _)
    · rw [Double.lt_iff_rank _ _ (hx (t.size_ - 1) (by omega)) hq] at c
      have h1 := (Double.le_iff_rank _ _ hq (hx (i + 1) (by omega))).mp hbr.2
      have h2 := hmono (i + 1) (t.size_ - 1) (by omega) (by omega)
      exact absurd (lt_of_le_of_lt (le_trans h1 h2) c) (lt_irrefl _)

theorem exampleTableF_sorted : exampleTableF.SortedF := by
  intro i hi
  have h3 : i + 1 < 3 := hi
  have h2 : i < 2 := by omega
  interval_cases i <;> decide!

end LookupTable1DF

/-! ### Where the claims about the interpolator fail on the program -/

namespace LookupTable1D

/-- The index returned is the least bracketing interval below the loop bound. -/
theorem findClosestIndex_eq_of_least_below_bound {w : Nat} (t : LookupTable1D w) (q : ℚ)
    (k : Nat) (hk : k < t.loopBound) (hbr : t.Brackets q k)
    (hmin : ∀ j, j < k → ¬ t.Brackets q j) :
    (t.findClosestIndex q).1 = k ∧ (t.findClosestIndex q).2.serial = [] := by
  rcases findClosestIndex_cases t q with ⟨k2, e, es, hk2, hbr2, hmin2⟩ | ⟨_, _, hno⟩
  · refine ⟨?_, es⟩
    rw [e]
    rcases Nat.lt_trichotomy k2 k with c | c | c
    · exact absurd hbr2 (hmin k2 c)
    · exact c
    · exact absurd hbr (hmin2 k c)
  · exact absurd hbr (hno k hk)

/-- C6 (as stated, refuted): the table constructed with `count = 0` over the arrays
`[0,5,10]`, `[1,2,10]` has no interval, so none brackets the query `7`; yet the wrapped
loop bound lets `findClosestIndex(7)` return `1` without the diagnostic. -/
theorem no_fallback_at_count_zero :
    zeroCountTable.size_ = 0 ∧
    (∀ i, i + 1 < zeroCountTable.size_ → ¬ zeroCountTable.Brackets 7 i) ∧
    (zeroCountTable.findClosestIndex 7).1 = 1 ∧
    (zeroCountTable.findClosestIndex 7).2.serial = [] := by
  have hs : zeroCountTable.size_ = 0 := rfl
  have hb : zeroCountTable.loopBound = 2 ^ 16 - 1 := loopBound_of_size_zero _ hs
  have h1 : zeroCountTable.Brackets 7 1 := by
    norm_num [Brackets, zeroCountTable, ofLists]
  have h0 : ∀ j, j < 1 → ¬ zeroCountTable.Brackets 7 j := by
    intro j hj
    have z : j = 0 := by omega
    subst z
    norm_num [Brackets, zeroCountTable, ofLists]
  refine ⟨hs, fun i hi => ?_,
    findClosestIndex_eq_of_least_below_bound zeroCountTable 7 1 (by rw [hb]; norm_num) h1 h0⟩
  rw [hs] at hi
  omega

end LookupTable1D

namespace LookupTable1DF

variable {w : Nat}

/-- C5 (as stated, refuted): on the sorted table with domain `[0,10,20]` a NaN query makes
both comparisons of every loop iteration false, so `findClosestIndex` takes the error
fallback, although neither `q < inputValues[0]` nor `q > inputValues[count-1]` holds. -/
theorem fallback_on_nan_query :
    exampleTableF.SortedF ∧ 2 ≤ exampleTableF.size_ ∧
    (exampleTableF.findClosestIndexF Double.nan).2.serial =
      ["Error: Failed to find closest index."] ∧
    Double.lt Double.nan (exampleTableF.inputValues_ 0) = false ∧
    Double.lt (exampleTableF.inputValues_ (exampleTableF.size_ - 1)) Double.nan = false :=
  ⟨exampleTableF_sorted, by decide, by decide!, by decide!, by decide!⟩

/-- C5 (amended): on a sorted (non-decreasing) table with `count >= 2` and for every query
that is not NaN, `findClosestIndex` reaches the error fallback, which is when no interval
brackets the query, if and only if `q < inputValues[0]` or `q > inputValues[count-1]`; a
query inside the sampled range is answered, without the diagnostic, by an interval that
brackets it. -/
theorem fallback_iff_out_of_range_not_nan (t : LookupTable1DF w) (q : Double)
    (hs : t.SortedF) (hn : 2 ≤ t.size_) (hq : q.isNaN = false) :
    ((t.findClosestIndexF q).2.serial = ["Error: Failed to find closest index."] ↔
      (Double.lt q (t.inputValues_ 0) = true ∨
        Double.lt (t.inputValues_ (t.size_ - 1)) q = true)) ∧
    ((∀ i, i + 1 < t.size_ → ¬ t.BracketsF q i) ↔
      (Double.lt q (t.inputValues_ 0) = true ∨
        Double.lt (t.inputValues_ (t.size_ - 1)) q = true)) ∧
    (Double.le (t.inputValues_ 0) q = true →
      Double.le q (t.inputValues_ (t.size_ - 1)) = true →
      (t.findClosestIndexF q).1 + 1 < t.size_ ∧ t.BracketsF q (t.findClosestIndexF q).1 ∧
        (t.findClosestIndexF q).2.serial = []) :=
  ⟨(fallbackF_iff_no_bracket t q (by omega)).trans (no_bracketF_iff_out_of_range t q hs hn hq),
    no_bracketF_iff_out_of_range t q hs hn hq,
    fun h0 h1 => findClosestIndexF_in_range t q hn (sortedF_not_isNaN t hs hn) h0 h1⟩

/-- Witness of C5 (amended): on the example table the query `25` takes the fallback and
the query `20` does not. -/
theorem fallback_iff_out_of_range_not_nan_witness :
    (exampleTableF.SortedF ∧ 2 ≤ exampleTableF.size_ ∧
      (Double.fin false 25).isNaN = false ∧ (Double.fin false 20).isNaN = false) ∧
    (exampleTableF.findClosestIndexF (Double.fin false 25)).2.serial =
      ["Error: Failed to find closest index."] ∧
    (exampleTableF.findClosestIndexF (Double.fin false 20)).2.serial = [] :=
  ⟨⟨exampleTableF_sorted, by decide, rfl, rfl⟩,
    (fallback_iff_out_of_range_not_nan exampleTableF (Double.fin false 25)
      exampleTableF_sorted (by decide) rfl).1.mpr (Or.inr (by decide!)),
    ((fallback_iff_out_of_range_not_nan exampleTableF (Double.fin false 20)
      exampleTableF_sorted (by decide) rfl).2.2 (by decide!) (by decide!)).2.2⟩

end LookupTable1DF
